import Mathlib

/-!
# jan-server: conversation branch model, provider registry and chat orchestration

A shallow embedding of

* `services/llm-api/domain/conversation/conversation.go` (branch-structured conversations),
* `services/llm-api/infrastructure/provider/provider.go` (the model registry),
* `services/llm-api/infrastructure/provider/openai_provider.go` (the adapter for
  OpenAI-compatible upstreams),
* `services/llm-api/interfaces/httpserver/handlers/chathandler/chat_handler.go`
  (the chat completion handler),

followed by theorems about them.

Conventions of the embedding:

* a Go `map[string]V` is an association list (`GoMap V`), a map that may be nil is an
  `Option (GoMap V)`; reading a nil map finds nothing;
* a Go slice is a `List` (a nil slice is the empty list): slices are values here, sharing
  of backing arrays is not represented;
* every method that mutates its receiver returns the new receiver next to its `error`
  result (`none` is a nil error);
* a pointer field that may be nil is an `Option`;
* a Go `string` is a `String` where the code compares, copies or concatenates it, and a
  list of bytes (`Bytes`) where the code measures or slices it;
* `time.Time` values are opaque ticks (`Time`), and `time.Now()` is an argument;
* `int` counters derived from slice lengths are unbounded `Int`s;
* what lies outside the repository (the database behind the two stores, the upstream
  provider, the client connection, `encoding/json`, the id generator) is given by the
  `World` a request runs in and the `Env` of that request.
-/

namespace JanServer

/-! ## Go maps with string keys -/

/-- A non-nil Go `map[string]V`: an association list whose first binding of a key is the live one. -/
abbrev GoMap (V : Type) := List (String × V)

namespace GoMap

/-- The comma-ok read `v, ok := m[k]`. -/
def get? {V : Type} : GoMap V → String → Option V
  | [], _ => none
  | (k', v) :: rest, k => if k' = k then some v else get? rest k

/-- The write `m[k] = v`; every earlier binding of `k` is dropped. -/
def set {V : Type} (m : GoMap V) (k : String) (v : V) : GoMap V :=
  (k, v) :: m.filter (fun e => !decide (e.1 = k))

/-- The values met by `for _, v := range m` (in the order of the association list). -/
def values {V : Type} (m : GoMap V) : List V :=
  m.map Prod.snd

end GoMap

/-- Read of a map that may be nil: a nil map has no keys. -/
def lookup {V : Type} (m : Option (GoMap V)) (k : String) : Option V :=
  match m with
  | none => none
  | some kvs => GoMap.get? kvs k

/-- Whether `k` is a key of the (possibly nil) map. -/
def hasKey {V : Type} (m : Option (GoMap V)) (k : String) : Bool :=
  (lookup m k).isSome

/-! ## `domain/conversation/item.go` -/

/-- Opaque `time.Time`. -/
abbrev Time := Nat

/-- Mirror of `Content`. -/
structure Content where
  ContentType : String
  Text : Option String
  ImageURL : Option String
  ImageFile : Option String
  Detail : Option String
  AudioURL : Option String
  AudioFile : Option String
  Format : Option String
  VideoURL : Option String
  VideoFile : Option String
  Transcript : Option String
deriving DecidableEq, Repr

/-- Mirror of `IncompleteDetails`. -/
structure IncompleteDetails where
  Reason : Option String
deriving DecidableEq, Repr

/-- Mirror of `Item`. -/
structure Item where
  ID : Nat
  ConversationID : Nat
  PublicID : String
  Object : String
  Branch : String
  SequenceNumber : Int
  ItemType : String
  Role : Option String
  Content : List Content
  Status : Option String
  IncompleteAt : Option Time
  IncompleteDetails : Option IncompleteDetails
  CompletedAt : Option Time
  ResponseID : Option Nat
  Rating : Option String
  RatedAt : Option Time
  RatingComment : Option String
  CreatedAt : Time
deriving DecidableEq, Repr

/-! ## `domain/conversation/conversation.go` -/

/-- Embeds `ConversationStatusActive`. -/
def ConversationStatusActive : String := "active"

/-- Embeds `BranchMain`: the default branch. -/
def BranchMain : String := "MAIN"

/-- Mirror of `BranchMetadata`. -/
structure BranchMetadata where
  Name : String
  Description : Option String
  ParentBranch : Option String
  ForkedAt : Option Time
  ForkedFromItemID : Option String
  ItemCount : Int
  CreatedAt : Time
  UpdatedAt : Time
deriving DecidableEq, Repr

/-- Mirror of `Conversation` (the branch-structured one). -/
structure Conversation where
  ID : Nat
  PublicID : String
  Object : String
  Title : Option String
  UserID : Nat
  Status : String
  Items : List Item
  Branches : Option (GoMap (List Item))
  ActiveBranch : String
  BranchMetadata : Option (GoMap BranchMetadata)
  Metadata : Option (GoMap String)
  Referrer : Option String
  IsPrivate : Bool
  CreatedAt : Time
  UpdatedAt : Time
deriving DecidableEq, Repr

/-- Embeds `NewConversation`: an active conversation whose only branch is `MAIN`, with no items. -/
def NewConversation (publicID : String) (userID : Nat) (title : Option String)
    (metadata : Option (GoMap String)) (now : Time) : Conversation :=
  let metadata := match metadata with
    | none => some []
    | some m => some m
  let conv : Conversation :=
    { ID := 0
      PublicID := publicID
      Object := "conversation"
      Title := title
      UserID := userID
      Status := ConversationStatusActive
      Items := []
      ActiveBranch := BranchMain
      Branches := some []
      BranchMetadata := some []
      Metadata := metadata
      Referrer := none
      IsPrivate := false
      CreatedAt := now
      UpdatedAt := now }
  { conv with
    BranchMetadata := some (GoMap.set (conv.BranchMetadata.getD []) BranchMain
      { Name := BranchMain
        Description := none
        ParentBranch := none
        ForkedAt := none
        ForkedFromItemID := none
        ItemCount := 0
        CreatedAt := now
        UpdatedAt := now }) }

/-- Embeds `Conversation.GetActiveBranchItems`. -/
def Conversation.GetActiveBranchItems (c : Conversation) : List Item :=
  match c.Branches with
  | some branches =>
    match GoMap.get? branches c.ActiveBranch with
    | some items => items
    | none => c.Items
  | none => c.Items

/-- Embeds `Conversation.GetBranchItems`. -/
def Conversation.GetBranchItems (c : Conversation) (branchName : String) : List Item :=
  match lookup c.Branches branchName with
  | some items => items
  | none => if branchName = BranchMain then c.Items else []

/-- Embeds `Conversation.AddItemToActiveBranch`; `now` is the value of `time.Now()`.
`meta.ItemCount++` is `+ 1` on unbounded integers: it agrees with Go's `int` for every
count below `math.MaxInt64`, where Go wraps around to `math.MinInt64`. -/
def Conversation.AddItemToActiveBranch (c : Conversation) (item : Item) (now : Time) :
    Conversation :=
  let branches : GoMap (List Item) := match c.Branches with
    | none => []
    | some b => b
  let current : List Item := (GoMap.get? branches c.ActiveBranch).getD []
  let item := { item with Branch := c.ActiveBranch, SequenceNumber := (current.length : Int) }
  let branches := GoMap.set branches c.ActiveBranch (current ++ [item])
  let c := { c with Branches := some branches }
  match c.BranchMetadata with
  | some bm =>
    match GoMap.get? bm c.ActiveBranch with
    | some m =>
      let m := { m with ItemCount := m.ItemCount + 1, UpdatedAt := now }
      { c with BranchMetadata := some (GoMap.set bm c.ActiveBranch m) }
    | none => c
  | none => c

/-- Embeds `Conversation.SwitchBranch`: the conversation afterwards and the returned error. -/
def Conversation.SwitchBranch (c : Conversation) (branchName : String) :
    Conversation × Option String :=
  match c.BranchMetadata with
  | some bm =>
    match GoMap.get? bm branchName with
    | none => (c, some ("branch not found: " ++ branchName))
    | some _ => ({ c with ActiveBranch := branchName }, none)
  | none => ({ c with ActiveBranch := branchName }, none)

/-- The search loop of `CreateBranch`: index of the first item whose `PublicID` is
`fromItemID`, counted from `i`; `-1` when there is none. -/
def findForkIndex (fromItemID : String) : List Item → Nat → Int
  | [], _ => -1
  | item :: rest, i =>
    if item.PublicID = fromItemID then (i : Int) else findForkIndex fromItemID rest (i + 1)

/-- The copy loop of `CreateBranch`: items `i, i+1, ...` of the source, each copied with
its branch re-tagged and its sequence number set to its index. -/
def copyForkItems (newBranchName : String) : List Item → Nat → List Item
  | [], _ => []
  | item :: rest, i =>
    { item with Branch := newBranchName, SequenceNumber := (i : Int) } ::
      copyForkItems newBranchName rest (i + 1)

/-- Embeds `Conversation.CreateBranch`: the conversation afterwards and the returned error;
`now` is the value of `time.Now()`. -/
def Conversation.CreateBranch (c : Conversation) (newBranchName sourceBranch fromItemID : String)
    (description : Option String) (now : Time) : Conversation × Option String :=
  let c := match c.Branches with
    | none => { c with Branches := some [] }
    | some _ => c
  let c := match c.BranchMetadata with
    | none => { c with BranchMetadata := some [] }
    | some _ => c
  if hasKey c.BranchMetadata newBranchName then
    (c, some ("branch already exists: " ++ newBranchName))
  else
    let sourceItems := c.GetBranchItems sourceBranch
    let forkIndex := findForkIndex fromItemID sourceItems 0
    if forkIndex = -1 ∧ fromItemID ≠ "" then
      (c, some ("item not found: " ++ fromItemID))
    else
      let newBranchItems : List Item :=
        if forkIndex ≥ 0 then
          copyForkItems newBranchName (sourceItems.take (forkIndex.toNat + 1)) 0
        else []
      let c := { c with
        Branches := some (GoMap.set (c.Branches.getD []) newBranchName newBranchItems) }
      let c := { c with
        BranchMetadata := some (GoMap.set (c.BranchMetadata.getD []) newBranchName
          { Name := newBranchName
            Description := description
            ParentBranch := some sourceBranch
            ForkedAt := some now
            ForkedFromItemID := some fromItemID
            ItemCount := (newBranchItems.length : Int)
            CreatedAt := now
            UpdatedAt := now }) }
      (c, none)

/-- One call on a conversation. -/
inductive ConvOp where
  | addItem (item : Item) (now : Time)
  | switchBranch (branchName : String)
  | createBranch (newBranchName sourceBranch fromItemID : String)
      (description : Option String) (now : Time)
deriving Repr

/-- The conversation after one call, whether the call succeeded or returned an error. -/
def ConvOp.apply (c : Conversation) : ConvOp → Conversation
  | .addItem item now => c.AddItemToActiveBranch item now
  | .switchBranch b => (c.SwitchBranch b).1
  | .createBranch n s f d now => (c.CreateBranch n s f d now).1

/-- The conversation after a sequence of calls. -/
def runOps (c : Conversation) (ops : List ConvOp) : Conversation :=
  ops.foldl ConvOp.apply c

/-! ## Byte strings and dynamic values -/

/-- A Go `[]byte`, and a Go `string` where the code measures or slices it. -/
abbrev Bytes := List UInt8

/-- The bytes of a string literal (UTF-8). -/
def utf8 (s : String) : Bytes :=
  s.data.foldr (fun c acc => String.utf8EncodeChar c ++ acc) []

/-- A `float32`, which the code only copies: its bit pattern. -/
structure Float32 where
  bits : Nat
deriving DecidableEq, Repr

/-- A value of type `any` (`interface{}`): nil, a scalar, a slice or a string-keyed map. -/
inductive GoAny where
  | null
  | bool (b : Bool)
  | int (n : Int)
  | float32 (x : Float32)
  | float64 (bits : Nat)
  | str (s : String)
  | list (xs : List GoAny)
  | dict (kvs : List (String × GoAny))
deriving Repr

/-- The test `v != nil` on a value of type `any`. -/
def GoAny.isNil : GoAny → Bool
  | .null => true
  | _ => false

/-! ## `infrastructure/provider/provider.go` -/

/-- Embeds `ErrModelNotFound`. -/
def ErrModelNotFound : String := "model not registered"

/-- Mirror of `provider.ChatCompletionRequest`. -/
structure ChatCompletionRequest where
  Model : String
  Messages : List (GoMap GoAny)
  Stream : Bool
  Temperature : Option Float32
  TopP : Option Float32
  MaxTokens : Option Int
  Metadata : Option (GoMap GoAny)
  Extras : Option (GoMap GoAny)
deriving Repr

/-- Mirror of `provider.ChatCompletionResponse`. -/
structure ChatCompletionResponse where
  Body : Bytes
  StatusCode : Int
  Headers : Option (GoMap String)
deriving DecidableEq, Repr

/-- A value of the interface `StreamResponse`, given by what its methods yield: `Stream`
hands `Chunks` to the callback one by one, in order, stops with the callback's error if it
returns one, and otherwise returns `Err` (nil at a clean end of stream, an error for a
cancelled context or a failed read) after the last chunk. -/
structure StreamResponse where
  Chunks : List Bytes
  Err : Option String
  Headers : Option (GoMap String)
  StatusCode : Int
deriving DecidableEq, Repr

/-- Mirror of `ModelConfig`. -/
structure ModelConfig where
  ID : String
  ServedName : String
  Capabilities : List String
deriving DecidableEq, Repr

/-- A value of the interface `Provider`, given by what its methods yield. An adapter talks
to an upstream service, so the same request may be answered differently each time: the
two call methods also receive the number of adapter invocations made before this one. -/
structure Provider where
  Name : String
  ChatCompletions : Nat → ChatCompletionRequest → GoMap String →
    Except String ChatCompletionResponse
  ChatCompletionsStream : Nat → ChatCompletionRequest → GoMap String →
    Except String StreamResponse

/-- Mirror of `Route`; `Provider` is an interface value, nil (`none`) in the zero `Route`. -/
structure Route where
  Model : ModelConfig
  Provider : Option Provider

/-- The zero value `Route{}`. -/
def Route.zero : Route :=
  { Model := { ID := "", ServedName := "", Capabilities := [] }, Provider := none }

/-- Mirror of `Registry` without its mutex. Both maps are unexported and are made by
`NewRegistry`, the only constructor, so they are never nil. -/
structure Registry where
  providers : GoMap Provider
  models : GoMap Route
  defaultProvider : String

/-- Embeds `NewRegistry`. -/
def NewRegistry : Registry :=
  { providers := [], models := [], defaultProvider := "" }

/-- Embeds `Registry.RegisterProvider`, for a non-nil adapter (`p.Name()` needs one). -/
def Registry.RegisterProvider (r : Registry) (p : Provider) : Registry :=
  { r with providers := GoMap.set r.providers p.Name p }

/-- Embeds `Registry.RegisterModel`. -/
def Registry.RegisterModel (r : Registry) (cfg : ModelConfig) (provider : Option Provider) :
    Registry :=
  { r with models := GoMap.set r.models cfg.ID { Model := cfg, Provider := provider } }

/-- Embeds `Registry.SetDefaultProvider`. -/
def Registry.SetDefaultProvider (r : Registry) (name : String) : Registry :=
  { r with defaultProvider := name }

/-- Embeds `Registry.Resolve`: the returned `Route` and the returned error (`none` is nil). -/
def Registry.Resolve (r : Registry) (modelID : String) : Route × Option String :=
  match GoMap.get? r.models modelID with
  | some rt => (rt, none)
  | none => (Route.zero, some ErrModelNotFound)

/-- Embeds `Registry.Providers`. -/
def Registry.Providers (r : Registry) : List Provider :=
  GoMap.values r.providers

/-- Embeds `Registry.Models`. -/
def Registry.Models (r : Registry) : List ModelConfig :=
  (GoMap.values r.models).map (fun rt => rt.Model)

/-- One mutating call on a registry. -/
inductive RegistryOp where
  | registerProvider (p : Provider)
  | registerModel (cfg : ModelConfig) (provider : Option Provider)
  | setDefaultProvider (name : String)

/-- The registry after one call. -/
def RegistryOp.apply (r : Registry) : RegistryOp → Registry
  | .registerProvider p => r.RegisterProvider p
  | .registerModel cfg p => r.RegisterModel cfg p
  | .setDefaultProvider name => r.SetDefaultProvider name

/-- The registry after a sequence of calls. -/
def runRegistryOps (r : Registry) (ops : List RegistryOp) : Registry :=
  ops.foldl RegistryOp.apply r

/-- The model ids that the `RegisterModel` calls of a sequence were given. -/
def registeredIDs : List RegistryOp → List String
  | [] => []
  | .registerModel cfg _ :: rest => cfg.ID :: registeredIDs rest
  | _ :: rest => registeredIDs rest

/-! ## `infrastructure/provider/openai_provider.go` -/

/-- Embeds `reader.ReadBytes(delim)` on the bytes still to come: the bytes up to and
including the first `delim`, the bytes after it, and whether `delim` was found. When it is
not found, the reader returns everything that was left, together with the error that ended
the read. -/
def readBytes (delim : UInt8) : Bytes → Bytes × Bytes × Bool
  | [] => ([], [], false)
  | x :: rest =>
    if x = delim then ([x], rest, true)
    else
      match readBytes delim rest with
      | (line, remaining, found) => (x :: line, remaining, found)

/-- Embeds `httpStreamResponse.Stream`. The upstream body is the list of bytes it delivers
and `readErr`, the transport error met when they run out (`none` stands for `io.EOF`, the
clean end); `ctxErr n` is the value of `ctx.Err()` when the loop checks the context for the
`n`-th time (`none` while the context is not done); the callback works on a state `σ`.
Every round of the loop is one unit of `fuel`; the result is `none` only when the fuel runs
out, otherwise the final state and the returned error. -/
def httpStreamResponse.Stream {σ : Type} (ctxErr : Nat → Option String)
    (readErr : Option String) (cb : σ → Bytes → σ × Option String) :
    Nat → Nat → Bytes → σ → Option (σ × Option String)
  | 0, _, _, _ => none
  | fuel + 1, n, body, st =>
    match ctxErr n with
    | some err => some (st, some err)
    | none =>
      match readBytes 0x0A body with
      | (line, remaining, found) =>
        match (if line.length > 0 then cb st line else (st, none)) with
        | (st, some err) => some (st, some err)
        | (st, none) =>
          if found then
            httpStreamResponse.Stream ctxErr readErr cb fuel (n + 1) remaining st
          else
            match readErr with
            | none => some (st, none)
            | some err => some (st, some err)

/-- First part of the map `payload` that `OpenAIProvider.performRequest` builds: the three
fixed keys and the three optional sampling parameters. -/
def OpenAIProvider.payloadHead (req : ChatCompletionRequest) : GoMap GoAny :=
  let payload : GoMap GoAny :=
    [("model", .str req.Model), ("messages", .list (req.Messages.map GoAny.dict)),
     ("stream", .bool req.Stream)]
  let payload := match req.Temperature with
    | some x => GoMap.set payload "temperature" (.float32 x)
    | none => payload
  let payload := match req.TopP with
    | some x => GoMap.set payload "top_p" (.float32 x)
    | none => payload
  match req.MaxTokens with
  | some n => GoMap.set payload "max_tokens" (.int n)
  | none => payload

/-- The map `payload` that `OpenAIProvider.performRequest` builds and hands to
`json.Marshal`, whose output is the body sent upstream (the keys of the map are the keys of
the JSON object): the first part, then every entry of `req.Extras` copied in. -/
def OpenAIProvider.payload (req : ChatCompletionRequest) : GoMap GoAny :=
  match req.Extras with
  | some extras =>
    extras.foldl (fun payload kv => GoMap.set payload kv.1 kv.2) (OpenAIProvider.payloadHead req)
  | none => OpenAIProvider.payloadHead req

/-- The lines of a body, following the words of the specification: one entry per
newline-terminated line (the newline included), and one more for an unterminated remainder
when it is not empty; `cur` is the line collected so far. -/
def linesFrom : Bytes → Bytes → List Bytes
  | cur, [] => if cur = [] then [] else [cur]
  | cur, x :: rest =>
    if x = 0x0A then (cur ++ [x]) :: linesFrom [] rest else linesFrom (cur ++ [x]) rest

/-- The lines of a body. -/
def linesOf (body : Bytes) : List Bytes :=
  linesFrom [] body

/-- The callback states passed through when the callback is invoked on each listed
argument in turn. -/
def invokeAll {σ : Type} (cb : σ → Bytes → σ × Option String) (st : σ) (args : List Bytes) : σ :=
  args.foldl (fun s line => (cb s line).1) st

/-- What `ChatCompletions` reads of the `*http.Response` that `performRequest` returns:
the status code, the header map (`http.Header`, a list of values for each name), the bytes
that `io.ReadAll(resp.Body)` yields, and the error of that read (`none` for a body read to
its end). -/
structure HTTPResponse where
  StatusCode : Int
  Header : GoMap (List String)
  Body : Bytes
  ReadErr : Option String
deriving DecidableEq, Repr

/-- Embeds `collectHeaders`: for every entry of the header map with `len(v) > 0`, the name is
set to `v[0]`. -/
def collectHeaders (header : GoMap (List String)) : GoMap String :=
  header.foldl
    (fun out kv =>
      match kv.2 with
      | v0 :: _ => GoMap.set out kv.1 v0
      | [] => out)
    []

/-- Embeds `OpenAIProvider.ChatCompletions`. The HTTP exchange behind `p.performRequest` is the
parameter `performRequest`: what it returns for the request and the principal headers. -/
def OpenAIProvider.ChatCompletions
    (performRequest : ChatCompletionRequest → GoMap String → Except String HTTPResponse)
    (req : ChatCompletionRequest) (principalHeaders : GoMap String) :
    Except String ChatCompletionResponse :=
  let req := { req with Stream := false }
  match performRequest req principalHeaders with
  | .error err => .error err
  | .ok resp =>
    match resp.ReadErr with
    | some err => .error ("read provider response: " ++ err)
    | none =>
      .ok { Body := resp.Body
            StatusCode := resp.StatusCode
            Headers := some (collectHeaders resp.Header) }

/-! ## `interfaces/httpserver/requests/chat/chat.go` -/

/-- Mirror of `ChatMessage`. -/
structure ChatMessage where
  Role : String
  Content : GoAny
  Name : String
  FunctionCall : GoAny
  ToolCalls : GoAny
  ToolCallID : String
  ReasoningContent : String
deriving Repr

/-- Mirror of `ConversationReference`. -/
structure ConversationReference where
  ID : Option String
  Object : Option (GoMap GoAny)
deriving Repr

/-- Mirror of `chatrequests.ChatCompletionRequest`. -/
structure chatrequests.ChatCompletionRequest where
  Model : String
  Messages : List ChatMessage
  Conversation : Option ConversationReference
  Store : Option Bool
  StoreReasoning : Option Bool
  Stream : Bool
  Temperature : Option Float32
  TopP : Option Float32
  MaxTokens : Option Int
  FrequencyPenalty : Option Float32
  PresencePenalty : Option Float32
  Stop : GoAny
  N : Option Int
  Metadata : Option (GoMap GoAny)
deriving Repr

/-- Embeds `ConversationReference.IsEmpty`, on a receiver that may be nil. -/
def ConversationReference.IsEmpty (c : Option ConversationReference) : Bool :=
  match c with
  | none => true
  | some c => c.ID.isNone && c.Object.isNone

/-- Embeds `ConversationReference.GetID`, on a receiver that may be nil. -/
def ConversationReference.GetID (c : Option ConversationReference) : String :=
  match c with
  | none => ""
  | some c =>
    match c.ID with
    | some id => id
    | none =>
      match c.Object with
      | some obj =>
        match GoMap.get? obj "id" with
        | some (.str id) => id
        | _ => ""
      | none => ""

/-! ## `domain`, `infrastructure/repo` and `infrastructure/idempotency` -/

/-- Mirror of `domain.Conversation`, the persisted chat session the handler works with.
`Title` is kept as bytes: the handler cuts it out of a message at byte offsets. -/
structure domain.Conversation where
  ID : String
  OwnerPrincipalID : String
  Title : Bytes
  Metadata : Bytes
  CreatedAt : Time
  UpdatedAt : Time
deriving DecidableEq, Repr

/-- The fields of `domain.Principal` that the handler reads. -/
structure Principal where
  ID : String
  AuthMethod : String
  Scopes : List String
deriving DecidableEq, Repr

/-- Mirror of `idempotency.Record`. -/
structure Record where
  Key : String
  PrincipalID : String
  Method : String
  Path : String
  Status : Int
  Response : Bytes
  CreatedAt : Time
deriving DecidableEq, Repr

/-- What lies outside the handler and outlives a request: the two database tables and the
adapter invocations made so far (the request each one was given). -/
structure World where
  conversations : List domain.Conversation
  idempotency : List Record
  providerCalls : List ChatCompletionRequest

/-- What the surroundings decide during one request: the clock, storage failures, the
generated conversation id, failures of writes to the client, and the JSON encoding of the
conversation chunk (`json.Marshal` of the map built from the conversation id, its title
when not empty, the creation time and the model name). -/
structure Env where
  now : Time
  conversationGetError : Option String
  conversationCreateError : Option String
  generateSecureID : Except String String
  idempotencyGetError : Option String
  idempotencySaveError : Option String
  clientWriteError : Nat → Option String
  marshalConversationChunk : String → Option Bytes → Time → String → Bytes

/-- Embeds `ConversationRepository.Get`: the record with that id, nil when there is none, or a
wrapped storage error. -/
def ConversationRepository.Get (env : Env) (w : World) (id : String) :
    Except String (Option domain.Conversation) :=
  match env.conversationGetError with
  | some e => .error ("get conversation: " ++ e)
  | none => .ok (w.conversations.find? (fun c => decide (c.ID = id)))

/-- Embeds `ConversationRepository.Create`: inserts the record; fails on a storage error, which
includes an id that is already taken (the id is the primary key). -/
def ConversationRepository.Create (env : Env) (w : World) (conversation : domain.Conversation) :
    World × Option String :=
  match env.conversationCreateError with
  | some e => (w, some ("create conversation: " ++ e))
  | none =>
    if w.conversations.any (fun c => decide (c.ID = conversation.ID)) then
      (w, some "create conversation: duplicate key")
    else
      ({ w with conversations := w.conversations ++ [conversation] }, none)

/-- Embeds `Store.Get`: the first record of that signature, nil when there is none, or a wrapped
storage error. -/
def Store.Get (env : Env) (w : World) (principalID method path key : String) :
    Except String (Option Record) :=
  match env.idempotencyGetError with
  | some e => .error ("query idempotency: " ++ e)
  | none =>
    .ok (w.idempotency.find? (fun r =>
      decide (r.PrincipalID = principalID ∧ r.Method = method ∧ r.Path = path ∧ r.Key = key)))

/-- Embeds `Store.Save`: inserts the record; fails on a storage error, which includes a key that
is already taken (`Key` is the primary key). -/
def Store.Save (env : Env) (w : World) (rec : Record) : World × Option String :=
  match env.idempotencySaveError with
  | some e => (w, some ("insert idempotency: " ++ e))
  | none =>
    if w.idempotency.any (fun r => decide (r.Key = rec.Key)) then
      (w, some "insert idempotency: duplicate key")
    else
      ({ w with idempotency := w.idempotency ++ [rec] }, none)

/-! ## Go's `strings` functions used by the handler -/

/-- Embeds `strings.Contains` on bytes. -/
def Contains (s substr : Bytes) : Bool :=
  decide (substr <:+: s)

/-- The UTF-8 encodings of the code points that `unicode.IsSpace` accepts: tab to carriage
return, space, U+0085, U+00A0, U+1680, U+2000 to U+200A, U+2028, U+2029, U+202F, U+205F
and U+3000. -/
def spaceEncodings : List Bytes :=
  [[0x09], [0x0A], [0x0B], [0x0C], [0x0D], [0x20], [0xC2, 0x85], [0xC2, 0xA0],
   [0xE1, 0x9A, 0x80], [0xE2, 0x80, 0x80], [0xE2, 0x80, 0x81], [0xE2, 0x80, 0x82],
   [0xE2, 0x80, 0x83], [0xE2, 0x80, 0x84], [0xE2, 0x80, 0x85], [0xE2, 0x80, 0x86],
   [0xE2, 0x80, 0x87], [0xE2, 0x80, 0x88], [0xE2, 0x80, 0x89], [0xE2, 0x80, 0x8A],
   [0xE2, 0x80, 0xA8], [0xE2, 0x80, 0xA9], [0xE2, 0x80, 0xAF], [0xE2, 0x81, 0x9F],
   [0xE3, 0x80, 0x80]]

/-- Width in bytes of the white-space code point that `s` starts with; 0 when it starts
with none. -/
def leadingSpaceWidth (s : Bytes) : Nat :=
  match spaceEncodings.find? (fun e => e.isPrefixOf s) with
  | some e => e.length
  | none => 0

/-- Width in bytes of the white-space code point that `s` ends with; 0 when it ends with
none. -/
def trailingSpaceWidth (s : Bytes) : Nat :=
  match spaceEncodings.find? (fun e => e.reverse.isPrefixOf s.reverse) with
  | some e => e.length
  | none => 0

/-- Embeds `strings.TrimLeftFunc(s, unicode.IsSpace)`; `fuel` bounds the number of code points
removed. -/
def trimLeftSpace : Nat → Bytes → Bytes
  | 0, s => s
  | fuel + 1, s =>
    if leadingSpaceWidth s = 0 then s else trimLeftSpace fuel (s.drop (leadingSpaceWidth s))

/-- Embeds `strings.TrimRightFunc(s, unicode.IsSpace)`; `fuel` bounds the number of code points
removed. -/
def trimRightSpace : Nat → Bytes → Bytes
  | 0, s => s
  | fuel + 1, s =>
    if trailingSpaceWidth s = 0 then s
    else trimRightSpace fuel (s.take (s.length - trailingSpaceWidth s))

/-- Embeds `strings.TrimSpace`: leading and trailing white space removed. -/
def TrimSpace (s : Bytes) : Bytes :=
  trimRightSpace s.length (trimLeftSpace s.length s)

/-- Scan of `strings.LastIndex` for a one-byte separator: `best` is the last index seen so
far, `i` the index of the head of the list. -/
def lastIndexFrom (sep : UInt8) : Bytes → Nat → Int → Int
  | [], _, best => best
  | x :: rest, i, best => lastIndexFrom sep rest (i + 1) (if x = sep then (i : Int) else best)

/-- Embeds `strings.LastIndex(s, " ")`: index of the last space, `-1` when there is none. -/
def LastIndexSpace (s : Bytes) : Int :=
  lastIndexFrom 0x20 s 0 (-1)

/-! ## `interfaces/httpserver/handlers/chathandler/chat_handler.go` -/

/-- The response side of `gin.Context`: status, headers, the bytes written so far and the
number of `Write` calls made so far. -/
structure ResponseWriter where
  Status : Int
  Header : GoMap String
  Body : Bytes
  Writes : Nat
deriving DecidableEq, Repr

/-- The parts of `gin.Context` that the handler uses. `CanFlush` tells whether the writer
is an `http.Flusher`. -/
structure GinContext where
  Method : String
  FullPath : String
  RequestHeader : GoMap String
  CanFlush : Bool
  Writer : ResponseWriter
deriving DecidableEq, Repr

/-- Embeds `c.Writer.Write(p)` for a response whose status line can be sent with a body: the
bytes reach the client unless the surroundings fail this write. With a status code that
`checkWriteHeaderCode` refuses, `net/http` panics when the first write sends the header,
and with one that `bodyAllowedForStatus` refuses it rejects the write; neither is followed
here, so statements about written bytes are made for status codes that pass both. -/
def ResponseWriter.Write (env : Env) (w : ResponseWriter) (p : Bytes) :
    ResponseWriter × Option String :=
  match env.clientWriteError w.Writes with
  | some e => ({ w with Writes := w.Writes + 1 }, some e)
  | none => ({ w with Body := w.Body ++ p, Writes := w.Writes + 1 }, none)

/-- Embeds `c.GetHeader(key)`: the empty string when the request has no such header. -/
def GinContext.GetHeader (c : GinContext) (key : String) : String :=
  (GoMap.get? c.RequestHeader key).getD ""

/-- Embeds `c.Header(key, value)`: sets the response header, or removes it when the value is
empty. -/
def GinContext.Header (c : GinContext) (key value : String) : GinContext :=
  if value = "" then
    { c with Writer := { c.Writer with
        Header := c.Writer.Header.filter (fun e => !decide (e.1 = key)) } }
  else
    { c with Writer := { c.Writer with Header := GoMap.set c.Writer.Header key value } }

/-- Embeds `c.Status(code)`: chooses the status line; ignored once the response has started. -/
def GinContext.Status (c : GinContext) (code : Int) : GinContext :=
  if code > 0 ∧ c.Writer.Writes = 0 then
    { c with Writer := { c.Writer with Status := code } }
  else c

/-- Embeds `c.Writer.Write(p)` on the context. -/
def GinContext.Write (env : Env) (c : GinContext) (p : Bytes) : GinContext × Option String :=
  ({ c with Writer := (c.Writer.Write env p).1 }, (c.Writer.Write env p).2)

/-- Gin's `bodyAllowedForStatus`: no body goes with a 1xx, 204 or 304 status. -/
def bodyAllowedForStatus (status : Int) : Bool :=
  !(decide (100 ≤ status ∧ status ≤ 199) || decide (status = 204) || decide (status = 304))

/-- The test of `checkWriteHeaderCode` in `net/http`, which panics with
`invalid WriteHeader code` on a status code that has not three digits. -/
def checkWriteHeaderCode (code : Int) : Bool :=
  decide (100 ≤ code ∧ code ≤ 999)

/-- Gin's `writeContentType`: sets `Content-Type` unless the response already has one. -/
def GinContext.writeContentType (c : GinContext) (value : String) : GinContext :=
  match GoMap.get? c.Writer.Header "Content-Type" with
  | some _ => c
  | none =>
    { c with Writer := { c.Writer with
        Header := GoMap.set c.Writer.Header "Content-Type" value } }

/-- Gin's `c.Render(code, r)` for a renderer with the given content type and encoded
body: status, content type, then the body when the status allows one. -/
def GinContext.Render (env : Env) (c : GinContext) (code : Int) (contentType : String)
    (data : Bytes) : GinContext :=
  let c := c.Status code
  let c := c.writeContentType contentType
  if bodyAllowedForStatus code then (c.Write env data).1 else c

/-- Embeds `c.Data(code, contentType, data)`. -/
def GinContext.Data (env : Env) (c : GinContext) (code : Int) (contentType : String)
    (data : Bytes) : GinContext :=
  c.Render env code contentType data

/-- Embeds `c.JSON(code, obj)`, given the JSON encoding of `obj`. -/
def GinContext.JSON (env : Env) (c : GinContext) (code : Int) (encoded : Bytes) : GinContext :=
  c.Render env code "application/json; charset=utf-8" encoded

/-- Embeds `PrepareSSE`: the context with the four event-stream headers set, and whether the
writer can flush. -/
def PrepareSSE (c : GinContext) : GinContext × Bool :=
  let h := c.Writer.Header
  let h := GoMap.set h "Content-Type" "text/event-stream"
  let h := GoMap.set h "Cache-Control" "no-cache"
  let h := GoMap.set h "Connection" "keep-alive"
  let h := GoMap.set h "Transfer-Encoding" "chunked"
  ({ c with Writer := { c.Writer with Header := h } }, c.CanFlush)

/-- Mirror of `ChatHandler` (logger left out: logging changes nothing modelled here). The
two stores are reached through `World`. -/
structure ChatHandler where
  registry : Registry

/-- Mirror of `ChatCompletionResult`. -/
structure ChatCompletionResult where
  Response : Option (GoMap GoAny)
  RawBody : Bytes
  StatusCode : Int
  Headers : Option (GoMap String)
  ConversationID : String
  ConversationTitle : Option Bytes
deriving Repr

/-- The zero value `ChatCompletionResult{}`. -/
def ChatCompletionResult.zero : ChatCompletionResult :=
  { Response := none, RawBody := [], StatusCode := 0, Headers := none,
    ConversationID := "", ConversationTitle := none }

/-- How a call of a handler method ends: with a result and a nil error, with an error, or
in a runtime panic. -/
inductive CallResult where
  | returned (result : ChatCompletionResult)
  | failed (err : String)
  | panicked (reason : String)
deriving Repr

/-- Loop body of `ChatHandler.buildProviderRequest`: the map built for one message. -/
def buildMessageMap (msg : ChatMessage) : GoMap GoAny :=
  let msgMap : GoMap GoAny := [("role", .str msg.Role)]
  let msgMap := if !msg.Content.isNil then GoMap.set msgMap "content" msg.Content else msgMap
  let msgMap := if msg.Name ≠ "" then GoMap.set msgMap "name" (.str msg.Name) else msgMap
  let msgMap :=
    if !msg.FunctionCall.isNil then GoMap.set msgMap "function_call" msg.FunctionCall else msgMap
  let msgMap :=
    if !msg.ToolCalls.isNil then GoMap.set msgMap "tool_calls" msg.ToolCalls else msgMap
  let msgMap :=
    if msg.ToolCallID ≠ "" then GoMap.set msgMap "tool_call_id" (.str msg.ToolCallID) else msgMap
  let msgMap :=
    if msg.ReasoningContent ≠ "" then
      GoMap.set msgMap "reasoning_content" (.str msg.ReasoningContent)
    else msgMap
  msgMap

/-- Embeds `ChatHandler.buildProviderRequest`. -/
def ChatHandler.buildProviderRequest (_h : ChatHandler)
    (req : chatrequests.ChatCompletionRequest) (route : Route) : ChatCompletionRequest :=
  let extras : GoMap GoAny := []
  let extras := match req.FrequencyPenalty with
    | some x => GoMap.set extras "frequency_penalty" (.float32 x)
    | none => extras
  let extras := match req.PresencePenalty with
    | some x => GoMap.set extras "presence_penalty" (.float32 x)
    | none => extras
  let extras := if !req.Stop.isNil then GoMap.set extras "stop" req.Stop else extras
  let extras := match req.N with
    | some n => GoMap.set extras "n" (.int n)
    | none => extras
  { Model := route.Model.ServedName
    Messages := req.Messages.map buildMessageMap
    Stream := req.Stream
    Temperature := req.Temperature
    TopP := req.TopP
    MaxTokens := req.MaxTokens
    Metadata := req.Metadata
    Extras := some extras }

/-- Embeds `ChatHandler.createConversation`: a conversation with a generated id, inserted into
the conversation table. -/
def ChatHandler.createConversation (_h : ChatHandler) (env : Env) (w : World)
    (ownerID : String) : World × Except String domain.Conversation :=
  match env.generateSecureID with
  | .error e => (w, .error ("failed to generate conversation ID: " ++ e))
  | .ok convID =>
    let conv : domain.Conversation :=
      { ID := convID, OwnerPrincipalID := ownerID, Title := [], Metadata := [],
        CreatedAt := env.now, UpdatedAt := env.now }
    match ConversationRepository.Create env w conv with
    | (w, some err) => (w, .error err)
    | (w, none) => (w, .ok conv)

/-- Embeds `ChatHandler.getConversationTitle`. -/
def ChatHandler.getConversationTitle (_h : ChatHandler) (conv : Option domain.Conversation) :
    Option Bytes :=
  match conv with
  | none => none
  | some conv => if conv.Title = [] then none else some conv.Title

/-- Embeds `ChatHandler.generateTitleFromMessages`. The content of a message is text when its
dynamic type is `string`. -/
def ChatHandler.generateTitleFromMessages (h : ChatHandler) : List ChatMessage → Bytes
  | [] => utf8 "New Conversation"
  | msg :: rest =>
    if msg.Role = "user" then
      match msg.Content with
      | .str content =>
        if content ≠ "" then
          let content := TrimSpace (utf8 content)
          if content.length > 60 then
            if LastIndexSpace (content.take 60) > 30 then
              content.take (LastIndexSpace (content.take 60)).toNat ++ utf8 "..."
            else
              content.take 60 ++ utf8 "..."
          else content
        else h.generateTitleFromMessages rest
      | _ => h.generateTitleFromMessages rest
    else h.generateTitleFromMessages rest

/-- Embeds `ChatHandler.prependConversationMessages`: returns the request's messages as they are
(the body is a TODO in the source). -/
def ChatHandler.prependConversationMessages (_h : ChatHandler)
    (_conv : Option domain.Conversation) (messages : List ChatMessage) : List ChatMessage :=
  messages

/-- Embeds `ChatHandler.addCompletionToConversation`: logs and returns nil (the body is a TODO in
the source); nothing is stored. -/
def ChatHandler.addCompletionToConversation (_h : ChatHandler) (_conv : domain.Conversation)
    (_newMessages : List ChatMessage) (_responseBody : Bytes) (_storeReasoning : Bool) :
    Option String :=
  none

/-- Embeds `replayStream`: the stored bytes written back as an event stream. -/
def replayStream (env : Env) (c : GinContext) (record : Record) : GinContext :=
  match PrepareSSE c with
  | (c, true) =>
    let c := c.Status record.Status
    if record.Response.length > 0 then (c.Write env record.Response).1 else c
  | (c, false) => c.Data env record.Status "text/event-stream" record.Response

/-- Embeds `ChatHandler.callChatCompletion`: one blocking adapter call. -/
def ChatHandler.callChatCompletion (_h : ChatHandler) (w : World) (route : Route)
    (req : ChatCompletionRequest) (forwardHeaders : GoMap String) : World × CallResult :=
  match route.Provider with
  | none => (w, .panicked "nil pointer dereference: route.Provider")
  | some provider =>
    let w' := { w with providerCalls := w.providerCalls ++ [req] }
    match provider.ChatCompletions w.providerCalls.length req forwardHeaders with
    | .error err => (w', .failed ("provider call failed: " ++ err))
    | .ok response =>
      (w', .returned
        { Response := none
          RawBody := response.Body
          StatusCode := response.StatusCode
          Headers := response.Headers
          ConversationID := ""
          ConversationTitle := none })

/-- The variables that the callback of `streamChatCompletion` closes over and changes: the
gin context it writes to, the buffer kept for the idempotency record, and the flag
`conversationSent`. -/
structure StreamState where
  c : GinContext
  buffer : Bytes
  conversationSent : Bool
deriving DecidableEq, Repr

/-- The callback that `streamChatCompletion` passes to `stream.Stream`, run on one chunk:
the state afterwards and the returned error. -/
def streamCallback (env : Env) (conv : Option domain.Conversation) (model : String)
    (st : StreamState) (chunk : Bytes) : StreamState × Option String :=
  if chunk.length = 0 then (st, none)
  else
    match st.c.Write env chunk with
    | (c, some err) => ({ st with c := c }, some err)
    | (c, none) =>
      let st := { st with c := c, buffer := st.buffer ++ chunk }
      match conv with
      | some conv =>
        if !st.conversationSent && Contains chunk (utf8 "[DONE]") then
          let chunkJSON := env.marshalConversationChunk conv.ID
            (if conv.Title ≠ [] then some conv.Title else none) env.now model
          let c := (st.c.Write env (utf8 "data: ")).1
          let c := (c.Write env chunkJSON).1
          let c := (c.Write env (utf8 "\n\n")).1
          ({ st with c := c, conversationSent := true }, none)
        else (st, none)
      | none => (st, none)

/-- The loop behind `StreamResponse.Stream`: the callback is run on each chunk in order; its
first error ends the loop and is returned; after the last chunk the stream's own outcome
is returned. -/
def streamLoop (env : Env) (conv : Option domain.Conversation) (model : String)
    (streamErr : Option String) : List Bytes → StreamState → StreamState × Option String
  | [], st => (st, streamErr)
  | chunk :: rest, st =>
    match streamCallback env conv model st chunk with
    | (st, some err) => (st, some err)
    | (st, none) => streamLoop env conv model streamErr rest st

/-- Call of `c.Header(k, v)` for every entry of the stream's headers. -/
def copyHeaders (c : GinContext) (headers : Option (GoMap String)) : GinContext :=
  match headers with
  | none => c
  | some kvs => kvs.foldl (fun c kv => c.Header kv.1 kv.2) c

/-- Embeds `ChatHandler.streamChatCompletion`: the world and the gin context afterwards, and how
the call ended. -/
def ChatHandler.streamChatCompletion (_h : ChatHandler) (env : Env) (w : World)
    (c : GinContext) (route : Route) (req : ChatCompletionRequest)
    (forwardHeaders : GoMap String) (conv : Option domain.Conversation)
    (principal : Principal) (idempotencyKey : String) : World × GinContext × CallResult :=
  match PrepareSSE c with
  | (c, false) => (w, c, .failed "response writer cannot stream")
  | (c, true) =>
    match route.Provider with
    | none => (w, c, .panicked "nil pointer dereference: route.Provider")
    | some provider =>
      let w' := { w with providerCalls := w.providerCalls ++ [req] }
      match provider.ChatCompletionsStream w.providerCalls.length req forwardHeaders with
      | .error err => (w', c, .failed ("provider stream failed: " ++ err))
      | .ok stream =>
        let c := copyHeaders c stream.Headers
        let status := if stream.StatusCode = 0 then 200 else stream.StatusCode
        let c := c.Status status
        match streamLoop env conv req.Model stream.Err stream.Chunks
            { c := c, buffer := [], conversationSent := false } with
        | (st, some err) => (w', st.c, .failed err)
        | (st, none) =>
          let c := st.c
          let w' :=
            if idempotencyKey ≠ "" then
              (Store.Save env w'
                { Key := idempotencyKey
                  PrincipalID := principal.ID
                  Method := c.Method
                  Path := c.FullPath
                  Status := status
                  Response := st.buffer
                  CreatedAt := env.now }).1
            else w'
          (w', c, .returned
            { Response := none
              RawBody := []
              StatusCode := status
              Headers := stream.Headers
              ConversationID := ""
              ConversationTitle := none })

/-- The headers forwarded to the adapter. -/
def forwardHeadersOf (principal : Principal) : GoMap String :=
  let forwardHeaders : GoMap String :=
    GoMap.set (GoMap.set [] "X-Principal-Id" principal.ID) "X-Auth-Method" principal.AuthMethod
  if principal.Scopes.length > 0 then
    GoMap.set forwardHeaders "X-Scopes" (" ".intercalate principal.Scopes)
  else forwardHeaders

/-- First part of `ChatHandler.createChatCompletion`, "get or create conversation". It
yields `conv`, `conversationID` and the message list of the request from then on, or ends
the call: with an error, or with the panic of reading `conv.ID` through a nil `conv`. -/
def ChatHandler.resolveConversation (h : ChatHandler) (env : Env) (w : World)
    (principal : Principal) (req : chatrequests.ChatCompletionRequest) :
    World × Except CallResult (Option domain.Conversation × String × List ChatMessage) :=
  if req.Conversation.isSome && !ConversationReference.IsEmpty req.Conversation then
    let convID := ConversationReference.GetID req.Conversation
    if convID ≠ "" then
      match ConversationRepository.Get env w convID with
      | .error err => (w, .error (.failed ("failed to get conversation: " ++ err)))
      | .ok existingConv =>
        match existingConv with
        | some existing =>
          if existing.OwnerPrincipalID ≠ principal.ID then
            (w, .error (.failed "conversation not found or access denied"))
          else
            (w, .ok (some existing, existing.ID,
              h.prependConversationMessages (some existing) req.Messages))
        | none =>
          (w, .error (.panicked "nil pointer dereference: conv.ID"))
    else
      match h.createConversation env w principal.ID with
      | (w, .error err) => (w, .error (.failed ("failed to create conversation: " ++ err)))
      | (w, .ok createdConv) =>
        let title := h.generateTitleFromMessages req.Messages
        let conv := if title ≠ [] then { createdConv with Title := title } else createdConv
        (w, .ok (some conv, conv.ID, req.Messages))
  else (w, .ok (none, "", req.Messages))

/-- Embeds `ChatHandler.createChatCompletion`: the world and the gin context afterwards, and how
the call ended. The "store conversation" step after a successful call only reaches
`addCompletionToConversation`, which stores nothing and whose error is logged, so it
leaves no trace here. -/
def ChatHandler.createChatCompletion (h : ChatHandler) (env : Env) (w : World)
    (c : GinContext) (principal : Principal) (req : chatrequests.ChatCompletionRequest) :
    World × GinContext × CallResult :=
  match h.resolveConversation env w principal req with
  | (w, .error ended) => (w, c, ended)
  | (w, .ok (conv, conversationID, messages)) =>
    let req := { req with Messages := messages }
    match h.registry.Resolve req.Model with
    | (_, some _) => (w, c, .failed ("model not found: " ++ req.Model))
    | (route, none) =>
      let providerReq := h.buildProviderRequest req route
      let idempotencyKey := c.GetHeader "Idempotency-Key"
      let record : Option Record :=
        if idempotencyKey ≠ "" then
          match Store.Get env w principal.ID c.Method c.FullPath idempotencyKey with
          | .error _ => none
          | .ok record => record
        else none
      match record with
      | some record =>
        if req.Stream then
          (w, replayStream env c record, .returned ChatCompletionResult.zero)
        else
          (w, c, .returned
            { Response := none
              RawBody := record.Response
              StatusCode := record.Status
              Headers := some []
              ConversationID := conversationID
              ConversationTitle := h.getConversationTitle conv })
      | none =>
        let forwardHeaders := forwardHeadersOf principal
        let executed : World × GinContext × CallResult :=
          if req.Stream then
            h.streamChatCompletion env w c route providerReq forwardHeaders conv principal
              idempotencyKey
          else
            match h.callChatCompletion w route providerReq forwardHeaders with
            | (w, ended) => (w, c, ended)
        match executed with
        | (w, c, .returned result) =>
          (w, c, .returned
            { result with
              ConversationID := conversationID
              ConversationTitle := h.getConversationTitle conv })
        | ended => ended

/-- Mirror of `responses.ErrorResponse`. -/
structure ErrorResponse where
  ErrorType : String
  Code : String
  Message : String
  Param : String
  RequestID : String
deriving DecidableEq, Repr

/-- What `ChatCompletions` takes from the gin context before it calls
`createChatCompletion`: the principal that the authentication middleware stored (if any),
the request id, and the outcome of reading the request body. -/
structure Incoming where
  Principal : Option Principal
  RequestID : String
  Body : Except String Bytes

/-- The uses of `encoding/json` around the handler: decoding the request body into a
request, decoding a provider body into a `map[string]interface{}` (which leaves the map
nil for the JSON literal `null`), and the encodings that `c.JSON` writes for an error
payload and for the response map, the latter with the conversation entry (id and title)
when one was inserted. -/
structure JSONCodec where
  decodeRequest : Bytes → Except String chatrequests.ChatCompletionRequest
  decodeObject : Bytes → Except String (Option (GoMap GoAny))
  encodeError : ErrorResponse → Bytes
  encodeObject : Option (GoMap GoAny) → Option (String × Option Bytes) → Bytes

/-- The loop `for k, v := range result.Headers { c.Header(k, v) }`. -/
def setResultHeaders (c : GinContext) (headers : Option (GoMap String)) : GinContext :=
  copyHeaders c headers

/-- Embeds `ChatHandler.ChatCompletions`: the world and the gin context afterwards, and the
reason of the panic if the call ended in one (`none` when it returned). -/
def ChatHandler.ChatCompletions (h : ChatHandler) (codec : JSONCodec) (env : Env) (w : World)
    (c : GinContext) (incoming : Incoming) : World × GinContext × Option String :=
  match incoming.Principal with
  | none =>
    (w, c.JSON env 401 (codec.encodeError
      { ErrorType := "auth_error", Code := "unauthorized", Message := "principal missing",
        Param := "", RequestID := incoming.RequestID }), none)
  | some principal =>
    match incoming.Body with
    | .error _ =>
      (w, c.JSON env 400 (codec.encodeError
        { ErrorType := "invalid_request_error", Code := "invalid_payload",
          Message := "failed to read request body", Param := "",
          RequestID := incoming.RequestID }), none)
    | .ok body =>
      match codec.decodeRequest body with
      | .error err =>
        (w, c.JSON env 400 (codec.encodeError
          { ErrorType := "invalid_request_error", Code := "invalid_json", Message := err,
            Param := "", RequestID := incoming.RequestID }), none)
      | .ok req =>
        if req.Model = "" then
          (w, c.JSON env 400 (codec.encodeError
            { ErrorType := "invalid_request_error", Code := "model_required",
              Message := "model is required", Param := "",
              RequestID := incoming.RequestID }), none)
        else if req.Messages.length = 0 then
          (w, c.JSON env 400 (codec.encodeError
            { ErrorType := "invalid_request_error", Code := "messages_required",
              Message := "messages must be provided", Param := "",
              RequestID := incoming.RequestID }), none)
        else
          match h.createChatCompletion env w c principal req with
          | (w, c, .panicked reason) => (w, c, some reason)
          | (w, c, .failed err) =>
            (w, c.JSON env 500 (codec.encodeError
              { ErrorType := "internal_error", Code := "completion_failed", Message := err,
                Param := "", RequestID := incoming.RequestID }), none)
          | (w, c, .returned result) =>
            if !req.Stream then
              match codec.decodeObject result.RawBody with
              | .ok responseData =>
                if result.ConversationID ≠ "" then
                  match responseData with
                  | none => (w, c, some "assignment to entry in nil map")
                  | some data =>
                    let c := setResultHeaders c result.Headers
                    (w, c.JSON env result.StatusCode (codec.encodeObject (some data)
                      (some (result.ConversationID, result.ConversationTitle))), none)
                else
                  let c := setResultHeaders c result.Headers
                  (w, c.JSON env result.StatusCode (codec.encodeObject responseData none), none)
              | .error _ =>
                let c := setResultHeaders c result.Headers
                (w, c.Data env result.StatusCode "application/json" result.RawBody, none)
            else (w, c, none)

/-- Any number of `AddItemToActiveBranch` calls, one per listed item and clock value. -/
def addItems (c : Conversation) (adds : List (Item × Time)) : Conversation :=
  adds.foldl (fun c a => c.AddItemToActiveBranch a.1 a.2) c

/-! ## Invariant of the branch model -/

/-- Value of `len(c.Branches[b])`: the number of items stored under branch `b`. -/
def branchLen (c : Conversation) (b : String) : Nat :=
  ((lookup c.Branches b).getD []).length

/-- The invariant kept by every call on a conversation built by `NewConversation`. -/
def BranchInv (c : Conversation) : Prop :=
  ∃ bm, c.BranchMetadata = some bm ∧
    (GoMap.get? bm BranchMain).isSome = true ∧
    (GoMap.get? bm c.ActiveBranch).isSome = true ∧
    ∀ b m, GoMap.get? bm b = some m → m.ItemCount = (branchLen c b : Int)

/-- Every stored item carries its own position: in every branch `b` of `Branches`, the item
at index `i` has `SequenceNumber` `i` and `Branch` `b`. -/
def SeqInv (c : Conversation) : Prop :=
  ∀ (b : String) (items : List Item), lookup c.Branches b = some items →
    ∀ (i : Nat) (x : Item), items[i]? = some x → x.SequenceNumber = (i : Int) ∧ x.Branch = b

/-- Every route of the registry is stored under the id of its own model config, as
`RegisterModel`, the only writer of the map, stores it. -/
def Registry.KeyedByID (r : Registry) : Prop :=
  ∀ e ∈ r.models, e.2.Model.ID = e.1

/-! ## Sample data -/

/-- A user message item with the given public id and text. -/
def sampleItem (publicID text : String) : Item :=
  { ID := 0
    ConversationID := 0
    PublicID := publicID
    Object := "conversation.item"
    Branch := ""
    SequenceNumber := 0
    ItemType := "message"
    Role := some "user"
    Content :=
      [{ ContentType := "text", Text := some text, ImageURL := none, ImageFile := none,
         Detail := none, AudioURL := none, AudioFile := none, Format := none,
         VideoURL := none, VideoFile := none, Transcript := none }]
    Status := none
    IncompleteAt := none
    IncompleteDetails := none
    CompletedAt := none
    ResponseID := none
    Rating := none
    RatedAt := none
    RatingComment := none
    CreatedAt := 0 }

/-- An adapter that answers every call with a fixed body. -/
def sampleProvider : Provider :=
  { Name := "vllm"
    ChatCompletions := fun _ _ _ =>
      .ok { Body := utf8 "\x7b\x7d", StatusCode := 200, Headers := some [] }
    ChatCompletionsStream := fun _ _ _ =>
      .ok { Chunks := [utf8 "data: [DONE]\n"], Err := none, Headers := some [],
            StatusCode := 200 } }

/-- A boot sequence: one provider with two models, then a default provider. -/
def sampleRegistryOps : List RegistryOp :=
  [ .registerProvider sampleProvider,
    .registerModel { ID := "m1", ServedName := "served-m1", Capabilities := ["chat"] }
      (some sampleProvider),
    .registerModel { ID := "m2", ServedName := "served-m2", Capabilities := [] }
      (some sampleProvider),
    .setDefaultProvider "vllm" ]

/-- An adapter whose answers differ from one invocation to the next: the first blocking
call is answered with completion `a`, every later one with completion `b`; a streamed call
yields one content event and then the terminal `data: [DONE]` event, one chunk each. -/
def flakyProvider : Provider :=
  { Name := "vllm"
    ChatCompletions := fun n _ _ =>
      .ok { Body := if n = 0 then utf8 "\x7b\"id\":\"a\"\x7d" else utf8 "\x7b\"id\":\"b\"\x7d"
            StatusCode := 200
            Headers := some [] }
    ChatCompletionsStream := fun _ _ _ =>
      .ok { Chunks := [utf8 "data: hi\n\n", utf8 "data: [DONE]\n\n"]
            Err := none
            Headers := some []
            StatusCode := 200 } }

/-- A handler whose registry routes model `m1` to `flakyProvider`. -/
def sampleHandler : ChatHandler :=
  { registry := NewRegistry.RegisterModel
      { ID := "m1", ServedName := "served-m1", Capabilities := ["chat"] } (some flakyProvider) }

/-- Surroundings in which nothing fails; the conversation chunk is encoded as the
conversation id between two quotes. -/
def sampleEnv : Env :=
  { now := 1000
    conversationGetError := none
    conversationCreateError := none
    generateSecureID := .ok "conv_new"
    idempotencyGetError := none
    idempotencySaveError := none
    clientWriteError := fun _ => none
    marshalConversationChunk := fun id _ _ _ => utf8 "\"" ++ utf8 id ++ utf8 "\"" }

/-- The principal `user_1`. -/
def samplePrincipal : Principal :=
  { ID := "user_1", AuthMethod := "jwt", Scopes := [] }

/-- A world with one stored conversation, owned by `user_1`, no idempotency record and no
adapter invocation so far. -/
def sampleWorld : World :=
  { conversations :=
      [{ ID := "conv_1", OwnerPrincipalID := "user_1", Title := utf8 "Greetings",
         Metadata := [], CreatedAt := 10, UpdatedAt := 10 }]
    idempotency := []
    providerCalls := [] }

/-- A fresh gin context for `POST /v1/chat/completions` carrying `Idempotency-Key: k1`. -/
def sampleContext : GinContext :=
  { Method := "POST"
    FullPath := "/v1/chat/completions"
    RequestHeader := [("Idempotency-Key", "k1")]
    CanFlush := true
    Writer := { Status := 200, Header := [], Body := [], Writes := 0 } }

/-- A request for model `m1` with one user message. -/
def sampleRequest (stream : Bool) (conversation : Option ConversationReference) :
    chatrequests.ChatCompletionRequest :=
  { Model := "m1"
    Messages :=
      [{ Role := "user", Content := .str "hello", Name := "", FunctionCall := .null,
         ToolCalls := .null, ToolCallID := "", ReasoningContent := "" }]
    Conversation := conversation
    Store := none
    StoreReasoning := none
    Stream := stream
    Temperature := none
    TopP := none
    MaxTokens := none
    FrequencyPenalty := none
    PresencePenalty := none
    Stop := .null
    N := none
    Metadata := none }

/-- The status and raw body of the result that a call returned, if it returned one. -/
def CallResult.statusAndBody : CallResult → Option (Int × Bytes)
  | .returned result => some (result.StatusCode, result.RawBody)
  | _ => none

/-- Whether the call returned a result with a nil error. -/
def CallResult.succeeded : CallResult → Bool
  | .returned _ => true
  | _ => false

/-- A non-streaming request without conversation, sent with `Idempotency-Key: k1` into a
world that holds no idempotency record. -/
def blockingAttempt : World × GinContext × CallResult :=
  sampleHandler.createChatCompletion sampleEnv sampleWorld sampleContext samplePrincipal
    (sampleRequest false none)

/-- The same request sent again, with a fresh gin context, into the world that the first
attempt left behind. -/
def blockingRetry : World × GinContext × CallResult :=
  sampleHandler.createChatCompletion sampleEnv blockingAttempt.1 sampleContext samplePrincipal
    (sampleRequest false none)

/-- A streaming request that names the stored conversation `conv_1`, sent with
`Idempotency-Key: k1` into a world that holds no idempotency record. -/
def streamingAttempt : World × GinContext × CallResult :=
  sampleHandler.createChatCompletion sampleEnv sampleWorld sampleContext samplePrincipal
    (sampleRequest true (some { ID := some "conv_1", Object := none }))

/-- The conversation chunk that `streamingAttempt` writes: `data: `, the encoded chunk and
a blank line. -/
def sampleConversationChunk : Bytes :=
  utf8 "data: " ++ sampleEnv.marshalConversationChunk "conv_1" (some (utf8 "Greetings")) 1000
    "served-m1" ++ utf8 "\n\n"

/-- A conversation value that carries flat `Items` and no branch maps (both maps nil),
the shape `GetActiveBranchItems` and `GetBranchItems` fall back on. -/
def legacyConversation : Conversation :=
  { ID := 1
    PublicID := "conv_legacy"
    Object := "conversation"
    Title := none
    UserID := 7
    Status := ConversationStatusActive
    Items := [sampleItem "msg_1" "hello"]
    Branches := none
    ActiveBranch := "MAIN"
    BranchMetadata := none
    Metadata := none
    Referrer := none
    IsPrivate := false
    CreatedAt := 0
    UpdatedAt := 0 }

/-- A conversation with three items on `MAIN`. -/
def sampleMain : Conversation :=
  runOps (NewConversation "conv_1" 7 none none 0)
    [ .addItem (sampleItem "msg_1" "hello") 1,
      .addItem (sampleItem "msg_2" "how are you") 2,
      .addItem (sampleItem "msg_3" "bye") 3 ]

/-- Three items appended to `MAIN`, then a fork into `EDIT` at the second item. -/
def sampleOps : List ConvOp :=
  [ .addItem (sampleItem "msg_1" "hello") 1,
    .addItem (sampleItem "msg_2" "how are you") 2,
    .addItem (sampleItem "msg_3" "bye") 3,
    .createBranch "EDIT" "MAIN" "msg_2" none 4 ]

/-- The second item of `MAIN` as the fork stores it under `EDIT`. -/
def sampleEditItem : Item :=
  { sampleItem "msg_2" "how are you" with Branch := "EDIT", SequenceNumber := 1 }

/-- The two items that `sampleOps` leaves under `EDIT`. -/
def sampleEditItems : List Item :=
  [{ sampleItem "msg_1" "hello" with Branch := "EDIT", SequenceNumber := 0 }, sampleEditItem]

/-- A callback that records its arguments in order and never fails. -/
def recordLines (seen : List Bytes) (line : Bytes) : List Bytes × Option String :=
  (seen ++ [line], none)

/-- An upstream body of two newline-terminated lines and an unterminated remainder. -/
def sampleBody : Bytes :=
  utf8 "data: a\n\ndata: [DONE]"

/-- The text that `generateTitleFromMessages` works on: the content of the first message
whose role is `user` and whose content is a non-empty string. -/
def firstUserText : List ChatMessage → Option String
  | [] => none
  | msg :: rest =>
    if msg.Role = "user" then
      match msg.Content with
      | .str content => if content ≠ "" then some content else firstUserText rest
      | _ => firstUserText rest
    else firstUserText rest

/-- A message with the given role and text content. -/
def textMessage (role content : String) : ChatMessage :=
  { Role := role, Content := .str content, Name := "", FunctionCall := .null,
    ToolCalls := .null, ToolCallID := "", ReasoningContent := "" }

/-- A text of 70 bytes without any space. -/
def longWord : String :=
  "aaaaaaaaaabbbbbbbbbbccccccccccddddddddddeeeeeeeeeeffffffffffgggggggggg"

/-- A text of 74 bytes whose last space among the first 60 bytes is at index 40. -/
def longSentence : String :=
  "Please summarise the quarterly financial report-for-the-board-of-directors"

/-- A stored idempotency record for `user_1`, `POST /v1/chat/completions` and key `k1`. -/
def replayRecord : Record :=
  { Key := "k1", PrincipalID := "user_1", Method := "POST", Path := "/v1/chat/completions",
    Status := 200, Response := utf8 "data: hi\n\ndata: [DONE]\n\n", CreatedAt := 900 }

/-- The sample world with `replayRecord` in the idempotency table. -/
def replayWorld : World :=
  { sampleWorld with idempotency := [replayRecord] }

/-- A codec that decodes every request body to the given request, decodes no provider
body, and encodes an error payload as its code, a colon and its message. -/
def sampleCodec (req : chatrequests.ChatCompletionRequest) : JSONCodec :=
  { decodeRequest := fun _ => .ok req
    decodeObject := fun _ => .error "invalid character"
    encodeError := fun e => utf8 e.Code ++ utf8 ": " ++ utf8 e.Message
    encodeObject := fun _ _ => [] }

/-- An authenticated request of `user_1` whose body was read. -/
def sampleIncoming : Incoming :=
  { Principal := some samplePrincipal, RequestID := "req_1", Body := .ok [] }

/-- A valid non-streaming request (a model id, one message) for the model id `m9`, which
the registry of `sampleHandler` does not hold. -/
def unknownModelRequest : chatrequests.ChatCompletionRequest :=
  { sampleRequest false none with Model := "m9" }

/-- The handling of `unknownModelRequest` by `ChatCompletions`. -/
def unknownModelResponse : World × GinContext × Option String :=
  sampleHandler.ChatCompletions (sampleCodec unknownModelRequest) sampleEnv sampleWorld
    sampleContext sampleIncoming

/-- The reason of the panic in which a call ended, if it ended in one. -/
def CallResult.panicReason : CallResult → Option String
  | .panicked reason => some reason
  | _ => none

/-- A reference to a conversation by its id, as the JSON string form gives it. -/
def conversationRef (id : String) : Option ConversationReference :=
  some { ID := some id, Object := none }

/-- A non-streaming request that names the stored conversation `conv_1`, owned by the
caller, sent into a world without idempotency record. -/
def conversationAttempt : World × GinContext × CallResult :=
  sampleHandler.createChatCompletion sampleEnv sampleWorld sampleContext samplePrincipal
    (sampleRequest false (conversationRef "conv_1"))

/-- A non-streaming request that names the id `conv_missing`, which the conversation table
does not hold. -/
def missingConversationAttempt : World × GinContext × CallResult :=
  sampleHandler.createChatCompletion sampleEnv sampleWorld sampleContext samplePrincipal
    (sampleRequest false (conversationRef "conv_missing"))

/-- An adapter that answers every blocking call with status 200 and the body `null`. -/
def nullProvider : Provider :=
  { Name := "vllm"
    ChatCompletions := fun _ _ _ =>
      .ok { Body := utf8 "null", StatusCode := 200, Headers := some [] }
    ChatCompletionsStream := fun _ _ _ => .error "not used" }

/-- A handler whose registry routes model `m1` to `nullProvider`. -/
def nullHandler : ChatHandler :=
  { registry := NewRegistry.RegisterModel
      { ID := "m1", ServedName := "served-m1", Capabilities := ["chat"] } (some nullProvider) }

/-- A codec that decodes every request body to the given request and decodes provider
bodies as `encoding/json` does for these two inputs: the literal `null` leaves the map nil
without error, anything else is taken as an empty object. -/
def nullCodec (req : chatrequests.ChatCompletionRequest) : JSONCodec :=
  { decodeRequest := fun _ => .ok req
    decodeObject := fun body => if body = utf8 "null" then .ok none else .ok (some [])
    encodeError := fun e => utf8 e.Code ++ utf8 ": " ++ utf8 e.Message
    encodeObject := fun _ _ => utf8 "\x7b\x7d" }

/-- The handling by `ChatCompletions` of a non-streaming request that names the stored
conversation `conv_1`, when the provider answers with the body `null`. -/
def nullBodyResponse : World × GinContext × Option String :=
  nullHandler.ChatCompletions (nullCodec (sampleRequest false (conversationRef "conv_1")))
    sampleEnv sampleWorld sampleContext sampleIncoming

/-- A request whose conversation reference is the empty JSON object: present, not empty,
without id. -/
def newConversationRequest (stream : Bool) : chatrequests.ChatCompletionRequest :=
  sampleRequest stream (some { ID := none, Object := some [] })

/-- The handling by `createChatCompletion` of a streaming request with the conversation
reference `\x7b\x7d`, in the world that already holds the idempotency record of the
request's key. -/
def replayedNewConversationAttempt : World × GinContext × CallResult :=
  sampleHandler.createChatCompletion sampleEnv replayWorld sampleContext samplePrincipal
    (newConversationRequest true)

/-- An adapter whose stream delivers, line by line, one content event whose text is
`[DONE]` and then the terminal `data: [DONE]` event. -/
def doneTextProvider : Provider :=
  { Name := "vllm"
    ChatCompletions := fun _ _ _ => .error "not used"
    ChatCompletionsStream := fun _ _ _ =>
      .ok { Chunks := [utf8 "data: \x7b\"content\":\"[DONE]\"\x7d\n", utf8 "\n",
                       utf8 "data: [DONE]\n", utf8 "\n"]
            Err := none
            Headers := some []
            StatusCode := 200 } }

/-- A handler whose registry routes model `m1` to `doneTextProvider`. -/
def doneTextHandler : ChatHandler :=
  { registry := NewRegistry.RegisterModel
      { ID := "m1", ServedName := "served-m1", Capabilities := ["chat"] }
      (some doneTextProvider) }

/-- The handling by `createChatCompletion` of a streaming request that names the stored
conversation `conv_1`, answered by `doneTextProvider`. -/
def doneTextAttempt : World × GinContext × CallResult :=
  doneTextHandler.createChatCompletion sampleEnv sampleWorld sampleContext samplePrincipal
    (sampleRequest true (conversationRef "conv_1"))

/-- An adapter whose stream delivers one content line and then ends with the error of a
cancelled context. -/
def cancelledProvider : Provider :=
  { Name := "vllm"
    ChatCompletions := fun _ _ _ => .error "not used"
    ChatCompletionsStream := fun _ _ _ =>
      .ok { Chunks := [utf8 "data: hi\n"]
            Err := some "context canceled"
            Headers := some []
            StatusCode := 200 } }

/-- The stream that `cancelledProvider` returns. -/
def cancelledStream : StreamResponse :=
  { Chunks := [utf8 "data: hi\n"]
    Err := some "context canceled"
    Headers := some []
    StatusCode := 200 }

/-- The route of model `m1` to `cancelledProvider`. -/
def cancelledRoute : Route :=
  { Model := { ID := "m1", ServedName := "served-m1", Capabilities := ["chat"] }
    Provider := some cancelledProvider }

/-- A provider request for the served model of `m1`, with no message. -/
def sampleProviderRequest : ChatCompletionRequest :=
  { Model := "served-m1", Messages := [], Stream := true, Temperature := none, TopP := none,
    MaxTokens := none, Metadata := none, Extras := none }

/-- An upstream answer with status 200 whose header `Set-Cookie` has two values. -/
def twoCookieResponse : HTTPResponse :=
  { StatusCode := 200
    Header := [("Content-Type", ["application/json"]), ("Set-Cookie", ["a=1", "b=2"])]
    Body := utf8 "ok"
    ReadErr := none }

/-- What `OpenAIProvider.ChatCompletions` returns when the upstream answers with
`twoCookieResponse`. -/
def twoCookieResult : Except String ChatCompletionResponse :=
  OpenAIProvider.ChatCompletions (fun _ _ => .ok twoCookieResponse) sampleProviderRequest []

/-- A conversation that carries one flat item and no entry in `Branches`, with `MAIN`
active and described in `BranchMetadata`: the shape that the fall-back of
`GetActiveBranchItems` and `GetBranchItems` on the flat `Items` serves. -/
def flatConversation : Conversation :=
  { legacyConversation with
    BranchMetadata :=
      some [("MAIN", { Name := "MAIN", Description := none, ParentBranch := none,
                       ForkedAt := none, ForkedFromItemID := none, ItemCount := 1,
                       CreatedAt := 0, UpdatedAt := 0 })] }

/-- A conversation as the database loader builds it from a record whose items all lie on
`MAIN`, whose branch rows are `MAIN` and `EDIT`, and whose active branch is `EDIT`:
`Branches` holds `MAIN` only, and the flat `Items` repeat the items of `MAIN`. -/
def loadedConversation : Conversation :=
  { ID := 2
    PublicID := "conv_loaded"
    Object := "conversation"
    Title := none
    UserID := 7
    Status := ConversationStatusActive
    Items := [{ sampleItem "msg_1" "hello" with Branch := "MAIN" }]
    Branches := some [("MAIN", [{ sampleItem "msg_1" "hello" with Branch := "MAIN" }])]
    ActiveBranch := "EDIT"
    BranchMetadata :=
      some [("MAIN", { Name := "MAIN", Description := none, ParentBranch := none,
                       ForkedAt := none, ForkedFromItemID := none, ItemCount := 1,
                       CreatedAt := 0, UpdatedAt := 0 }),
            ("EDIT", { Name := "EDIT", Description := none, ParentBranch := some "MAIN",
                       ForkedAt := some 1, ForkedFromItemID := none, ItemCount := 0,
                       CreatedAt := 1, UpdatedAt := 1 })]
    Metadata := some []
    Referrer := none
    IsPrivate := false
    CreatedAt := 0
    UpdatedAt := 1 }

/-- The record `replayRecord` with the status code 0 in place of 200. -/
def zeroStatusRecord : Record :=
  { replayRecord with Status := 0 }

/-- The sample world with `zeroStatusRecord` in the idempotency table. -/
def zeroStatusWorld : World :=
  { sampleWorld with idempotency := [zeroStatusRecord] }

/-- The handling by `createChatCompletion` of a streaming request without conversation, in
the world that holds `zeroStatusRecord` for the request's key. -/
def zeroStatusReplay : World × GinContext × CallResult :=
  sampleHandler.createChatCompletion sampleEnv zeroStatusWorld sampleContext samplePrincipal
    (sampleRequest true none)

/-! ## Derived forms used by the proofs -/

/-- The map `Extras` that `buildProviderRequest` fills. -/
def extrasOf (req : chatrequests.ChatCompletionRequest) : GoMap GoAny :=
  let extras : GoMap GoAny := []
  let extras := match req.FrequencyPenalty with
    | some x => GoMap.set extras "frequency_penalty" (.float32 x)
    | none => extras
  let extras := match req.PresencePenalty with
    | some x => GoMap.set extras "presence_penalty" (.float32 x)
    | none => extras
  let extras := if !req.Stop.isNil then GoMap.set extras "stop" req.Stop else extras
  match req.N with
  | some n => GoMap.set extras "n" (.int n)
  | none => extras

/-- The items `CreateBranch` stores under the new branch. -/
def forkItems (c : Conversation) (newBranchName sourceBranch fromItemID : String) : List Item :=
  if findForkIndex fromItemID (c.GetBranchItems sourceBranch) 0 ≥ 0 then
    copyForkItems newBranchName
      ((c.GetBranchItems sourceBranch).take
        ((findForkIndex fromItemID (c.GetBranchItems sourceBranch) 0).toNat + 1)) 0
  else []

/-- The receiver of `CreateBranch` after its two nil checks. -/
def withMaps (c : Conversation) : Conversation :=
  { c with Branches := some (c.Branches.getD []), BranchMetadata := some (c.BranchMetadata.getD []) }

/-- The state in which `streamChatCompletion` enters the loop of `stream.Stream`: the
event-stream headers, the stream's headers and its status are set on the context, the
buffer is empty and no conversation chunk has been sent. -/
def streamStart (c : GinContext) (stream : StreamResponse) : StreamState :=
  { c := (copyHeaders (PrepareSSE c).1 stream.Headers).Status
      (if stream.StatusCode = 0 then 200 else stream.StatusCode)
    buffer := []
    conversationSent := false }

/-! ## Theorems: maps -/

theorem GoMap.get?_set_self {V : Type} (m : GoMap V) (k : String) (v : V) :
    GoMap.get? (GoMap.set m k v) k = some v := by
  simp [GoMap.set, GoMap.get?]

theorem GoMap.get?_filter_ne {V : Type} (m : GoMap V) (k k' : String) (h : k' ≠ k) :
    GoMap.get? (m.filter (fun e => !decide (e.1 = k))) k' = GoMap.get? m k' := by
  induction m with
  | nil => rfl
  | cons e rest ih =>
    obtain ⟨a, v⟩ := e
    by_cases ha : a = k
    · subst ha
      have hak : ¬ a = k' := fun h' => h h'.symm
      simpa [List.filter, GoMap.get?, hak] using ih
    · by_cases hk : a = k'
      · subst hk
        simp [List.filter, GoMap.get?, ha]
      · simpa [List.filter, GoMap.get?, ha, hk] using ih

theorem GoMap.get?_set_ne {V : Type} (m : GoMap V) (k k' : String) (v : V) (h : k' ≠ k) :
    GoMap.get? (GoMap.set m k v) k' = GoMap.get? m k' := by
  have hk : ¬ k = k' := fun h' => h h'.symm
  simp [GoMap.set, GoMap.get?, hk, GoMap.get?_filter_ne m k k' h]

/-! ## Theorems: the branch model -/

theorem branchInv_new (publicID : String) (userID : Nat) (title : Option String)
    (metadata : Option (GoMap String)) (now : Time) :
    BranchInv (NewConversation publicID userID title metadata now) := by
  refine ⟨_, rfl, ?_, ?_, ?_⟩
  · simp [GoMap.get?_set_self]
  · simp [NewConversation, GoMap.get?_set_self]
  · intro b m hm
    by_cases hb : b = BranchMain
    · subst hb
      rw [GoMap.get?_set_self] at hm
      cases hm
      simp [branchLen, NewConversation, lookup, GoMap.get?]
    · rw [GoMap.get?_set_ne _ _ _ _ hb] at hm
      simp [GoMap.get?] at hm

theorem branchInv_addItem (c : Conversation) (item : Item) (now : Time) (h : BranchInv c) :
    BranchInv (c.AddItemToActiveBranch item now) := by
  obtain ⟨bm, hbm, hmain, hact, hcnt⟩ := h
  obtain ⟨m, hm⟩ := Option.isSome_iff_exists.mp hact
  have hlen : branchLen c c.ActiveBranch
      = ((GoMap.get? (match c.Branches with | none => [] | some b => b) c.ActiveBranch).getD []).length := by
    unfold branchLen lookup
    cases c.Branches <;> simp [GoMap.get?]
  refine ⟨GoMap.set bm c.ActiveBranch { m with ItemCount := m.ItemCount + 1, UpdatedAt := now },
    ?_, ?_, ?_, ?_⟩
  · simp [Conversation.AddItemToActiveBranch, hbm, hm]
  · by_cases hb : BranchMain = c.ActiveBranch
    · rw [hb, GoMap.get?_set_self]; rfl
    · rw [GoMap.get?_set_ne _ _ _ _ hb]; exact hmain
  · have hA : (c.AddItemToActiveBranch item now).ActiveBranch = c.ActiveBranch := by
      simp [Conversation.AddItemToActiveBranch, hbm, hm]
    rw [hA, GoMap.get?_set_self]; rfl
  · intro b m' hm'
    have hB : (c.AddItemToActiveBranch item now).Branches
        = some (GoMap.set (match c.Branches with | none => [] | some b => b) c.ActiveBranch
            ((GoMap.get? (match c.Branches with | none => [] | some b => b) c.ActiveBranch).getD []
              ++ [{ item with Branch := c.ActiveBranch,
                              SequenceNumber := (((GoMap.get? (match c.Branches with | none => [] | some b => b) c.ActiveBranch).getD []).length : Int) }])) := by
      simp [Conversation.AddItemToActiveBranch, hbm, hm]
    by_cases hb : b = c.ActiveBranch
    · subst hb
      rw [GoMap.get?_set_self] at hm'
      cases hm'
      have := hcnt _ _ hm
      simp only [branchLen, hB, lookup, GoMap.get?_set_self, Option.getD_some, List.length_append,
        List.length_singleton]
      rw [this, hlen]
      push_cast
      rfl
    · rw [GoMap.get?_set_ne _ _ _ _ hb] at hm'
      have := hcnt _ _ hm'
      rw [this]
      simp only [branchLen, hB, lookup, GoMap.get?_set_ne _ _ _ _ hb]
      cases c.Branches <;> simp [GoMap.get?]

theorem switchBranch_absent (c : Conversation) (b : String) (bm : GoMap BranchMetadata)
    (hbm : c.BranchMetadata = some bm) (hb : GoMap.get? bm b = none) :
    c.SwitchBranch b = (c, some ("branch not found: " ++ b)) := by
  simp [Conversation.SwitchBranch, hbm, hb]

theorem switchBranch_present (c : Conversation) (b : String) (bm : GoMap BranchMetadata)
    (m : BranchMetadata) (hbm : c.BranchMetadata = some bm) (hb : GoMap.get? bm b = some m) :
    c.SwitchBranch b = ({ c with ActiveBranch := b }, none) := by
  simp [Conversation.SwitchBranch, hbm, hb]

theorem branchInv_switchBranch (c : Conversation) (b : String) (h : BranchInv c) :
    BranchInv (c.SwitchBranch b).1 := by
  obtain ⟨bm, hbm, hmain, hact, hcnt⟩ := h
  cases hb : GoMap.get? bm b with
  | none =>
    rw [switchBranch_absent c b bm hbm hb]
    exact ⟨bm, hbm, hmain, hact, hcnt⟩
  | some m =>
    rw [switchBranch_present c b bm m hbm hb]
    refine ⟨bm, hbm, hmain, ?_, ?_⟩
    · simp [hb]
    · intro b' m' hm'
      exact hcnt b' m' hm'

theorem branchInv_createBranch (c : Conversation) (n s f : String) (d : Option String)
    (now : Time) (h : BranchInv c) : BranchInv (c.CreateBranch n s f d now).1 := by
  obtain ⟨bm, hbm, hmain, hact, hcnt⟩ := h
  -- the two nil checks leave the metadata map as it is and make `Branches` non-nil
  obtain ⟨c', hc', hB', hA', hL', hI'⟩ :
      ∃ c' : Conversation,
        c' = (match (match c.Branches with
                      | none => { c with Branches := some [] }
                      | some _ => c).BranchMetadata with
              | none => { (match c.Branches with
                            | none => { c with Branches := some [] }
                            | some _ => c) with BranchMetadata := some [] }
              | some _ => (match c.Branches with
                            | none => { c with Branches := some [] }
                            | some _ => c)) ∧
        c'.BranchMetadata = some bm ∧ c'.ActiveBranch = c.ActiveBranch ∧
        (∀ b, branchLen c' b = branchLen c b) ∧ c'.Items = c.Items := by
    refine ⟨_, rfl, ?_, ?_, ?_, ?_⟩ <;> cases hBr : c.Branches <;>
      simp [hbm, hBr, branchLen, lookup, GoMap.get?]
  have hinv' : BranchInv c' :=
    ⟨bm, hB', hmain, by rw [hA']; exact hact, fun b m hm => by rw [hL']; exact hcnt b m hm⟩
  unfold Conversation.CreateBranch
  simp only [← hc']
  split
  · exact hinv'
  · rename_i hkey
    split
    · exact hinv'
    · have hn : GoMap.get? bm n = none := by
        simpa [hasKey, lookup, hB'] using hkey
      refine ⟨_, rfl, ?_, ?_, ?_⟩
      · by_cases hb : BranchMain = n
        · rw [hb, GoMap.get?_set_self]; rfl
        · simp only [hB', Option.getD_some]
          rw [GoMap.get?_set_ne _ _ _ _ hb]; exact hmain
      · have hne : c.ActiveBranch ≠ n := by
          intro heq
          rw [heq, hn] at hact
          simp at hact
        simp only [hB', Option.getD_some, hA']
        rw [GoMap.get?_set_ne _ _ _ _ hne]; exact hact
      · intro b m hm
        simp only [hB', Option.getD_some] at hm
        by_cases hb : b = n
        · subst hb
          rw [GoMap.get?_set_self] at hm
          cases hm
          simp [branchLen, lookup, GoMap.get?_set_self]
        · rw [GoMap.get?_set_ne _ _ _ _ hb] at hm
          have h1 := hcnt b m hm
          rw [h1, ← hL' b]
          simp only [branchLen, lookup, GoMap.get?_set_ne _ _ _ _ hb]
          cases c'.Branches <;> simp [GoMap.get?]

theorem branchInv_apply (c : Conversation) (op : ConvOp) (h : BranchInv c) :
    BranchInv (ConvOp.apply c op) := by
  cases op with
  | addItem item now => exact branchInv_addItem c item now h
  | switchBranch b => exact branchInv_switchBranch c b h
  | createBranch n s f d now => exact branchInv_createBranch c n s f d now h

theorem branchInv_runOps (ops : List ConvOp) (c : Conversation) (h : BranchInv c) :
    BranchInv (runOps c ops) := by
  induction ops generalizing c with
  | nil => exact h
  | cons op rest ih => exact ih _ (branchInv_apply c op h)

/-- C1: in every conversation state reached from `NewConversation` by any sequence of
`AddItemToActiveBranch`, `SwitchBranch` and `CreateBranch` calls, successful or failed,
both `"MAIN"` and the current `ActiveBranch` are keys of `BranchMetadata`. -/
theorem reachable_main_and_active_are_keys (publicID : String) (userID : Nat)
    (title : Option String) (metadata : Option (GoMap String)) (now : Time)
    (ops : List ConvOp) :
    hasKey (runOps (NewConversation publicID userID title metadata now) ops).BranchMetadata
        "MAIN" = true ∧
      hasKey (runOps (NewConversation publicID userID title metadata now) ops).BranchMetadata
        (runOps (NewConversation publicID userID title metadata now) ops).ActiveBranch = true := by
  obtain ⟨bm, hbm, hmain, hact, _⟩ :=
    branchInv_runOps ops _ (branchInv_new publicID userID title metadata now)
  simp only [hasKey, lookup, hbm]
  exact ⟨hmain, hact⟩

/-- C2: in every conversation state reached from `NewConversation` by any sequence of
`AddItemToActiveBranch`, `SwitchBranch` and `CreateBranch` calls, every branch `b` that is
a key of `BranchMetadata` has `len(Branches[b]) = BranchMetadata[b].ItemCount`. -/
theorem reachable_item_count_eq_len (publicID : String) (userID : Nat)
    (title : Option String) (metadata : Option (GoMap String)) (now : Time)
    (ops : List ConvOp) (b : String) (m : BranchMetadata)
    (hb : lookup (runOps (NewConversation publicID userID title metadata now) ops).BranchMetadata
      b = some m) :
    (branchLen (runOps (NewConversation publicID userID title metadata now) ops) b : Int)
      = m.ItemCount := by
  obtain ⟨bm, hbm, _, _, hcnt⟩ :=
    branchInv_runOps ops _ (branchInv_new publicID userID title metadata now)
  rw [hbm] at hb
  exact (hcnt b m hb).symm

theorem reachable_item_count_eq_len_witness :
    lookup (runOps (NewConversation "conv_1" 7 none none 0) sampleOps).BranchMetadata "EDIT"
        = some { Name := "EDIT", Description := none, ParentBranch := some "MAIN",
                 ForkedAt := some 4, ForkedFromItemID := some "msg_2", ItemCount := 2,
                 CreatedAt := 4, UpdatedAt := 4 } ∧
      (branchLen (runOps (NewConversation "conv_1" 7 none none 0) sampleOps) "EDIT" : Int) = 2 :=
  ⟨by decide,
    reachable_item_count_eq_len "conv_1" 7 none none 0 sampleOps "EDIT"
      { Name := "EDIT", Description := none, ParentBranch := some "MAIN",
        ForkedAt := some 4, ForkedFromItemID := some "msg_2", ItemCount := 2,
        CreatedAt := 4, UpdatedAt := 4 } (by decide)⟩

/-- Unfolding of `CreateBranch` as one case distinction over the receiver it was called on. -/
theorem createBranch_eq (c : Conversation) (n s f : String) (d : Option String) (now : Time) :
    c.CreateBranch n s f d now =
      if hasKey c.BranchMetadata n then
        (withMaps c, some ("branch already exists: " ++ n))
      else if findForkIndex f (c.GetBranchItems s) 0 = -1 ∧ f ≠ "" then
        (withMaps c, some ("item not found: " ++ f))
      else
        ({ c with
            Branches := some (GoMap.set (c.Branches.getD []) n (forkItems c n s f))
            BranchMetadata := some (GoMap.set (c.BranchMetadata.getD []) n
              { Name := n
                Description := d
                ParentBranch := some s
                ForkedAt := some now
                ForkedFromItemID := some f
                ItemCount := ((forkItems c n s f).length : Int)
                CreatedAt := now
                UpdatedAt := now }) }, none) := by
  obtain ⟨_, _, _, _, _, _, _, branches, _, bm, _, _, _, _, _⟩ := c
  cases branches <;> cases bm <;>
    simp [Conversation.CreateBranch, hasKey, lookup, Conversation.GetBranchItems,
      forkItems, withMaps, GoMap.get?]

theorem findForkIndex_first (f : String) (items : List Item) (i k : Nat)
    (hat : (items[k]?).map (fun x => x.PublicID) = some f)
    (hfirst : ∀ j, j < k → (items[j]?).map (fun x => x.PublicID) ≠ some f) :
    findForkIndex f items i = ((i + k : Nat) : Int) := by
  induction items generalizing i k with
  | nil => simp at hat
  | cons x rest ih =>
    cases k with
    | zero =>
      have hx : x.PublicID = f := by simpa using hat
      simp [findForkIndex, hx]
    | succ k =>
      have hx : ¬ x.PublicID = f := by
        have := hfirst 0 (Nat.succ_pos k)
        simpa using this
      have hrest := ih (i + 1) k (by simpa using hat)
        (fun j hj => by simpa using hfirst (j + 1) (Nat.succ_lt_succ hj))
      simp only [findForkIndex, hx, if_false, hrest]
      congr 1
      omega

theorem length_copyForkItems (n : String) (items : List Item) (i : Nat) :
    (copyForkItems n items i).length = items.length := by
  induction items generalizing i with
  | nil => rfl
  | cons x rest ih => simp [copyForkItems, ih]

theorem getElem?_copyForkItems (n : String) (items : List Item) (i j : Nat) :
    (copyForkItems n items i)[j]?
      = (items[j]?).map (fun s => { s with Branch := n, SequenceNumber := ((i + j : Nat) : Int) }) := by
  induction items generalizing i j with
  | nil => simp [copyForkItems]
  | cons x rest ih =>
    cases j with
    | zero => simp [copyForkItems]
    | succ j =>
      simp only [copyForkItems, List.getElem?_cons_succ, ih]
      have : i + 1 + j = i + (j + 1) := by omega
      rw [this]

/-- C3: when `B` is not a key of `BranchMetadata` and `fromItemID` first occurs (by
`PublicID`) at index `k` of the source branch's items, `CreateBranch` succeeds and
`Branches[B]` holds exactly `k+1` items, item `i` being source item `i` with `Branch` set
to `B` and `SequenceNumber` set to `i`. (Nothing in the proof needs `fromItemID` to be
non-empty, so the statement covers every non-empty identifier.) -/
theorem createBranch_copies_prefix (c : Conversation) (B source fromItemID : String)
    (d : Option String) (now : Time) (k : Nat)
    (hB : hasKey c.BranchMetadata B = false)
    (hat : ((c.GetBranchItems source)[k]?).map (fun x => x.PublicID) = some fromItemID)
    (hfirst : ∀ j, j < k →
      ((c.GetBranchItems source)[j]?).map (fun x => x.PublicID) ≠ some fromItemID) :
    (c.CreateBranch B source fromItemID d now).2 = none ∧
      ∃ items, lookup (c.CreateBranch B source fromItemID d now).1.Branches B = some items ∧
        items.length = k + 1 ∧
        ∀ i, i ≤ k →
          items[i]? = ((c.GetBranchItems source)[i]?).map
            (fun s => { s with Branch := B, SequenceNumber := (i : Int) }) := by
  have hidx : findForkIndex fromItemID (c.GetBranchItems source) 0 = (k : Int) := by
    simpa using findForkIndex_first fromItemID (c.GetBranchItems source) 0 k hat hfirst
  have hk : k < (c.GetBranchItems source).length := by
    by_contra hge
    rw [List.getElem?_eq_none (Nat.le_of_not_lt hge)] at hat
    simp at hat
  have hnot : ¬ (findForkIndex fromItemID (c.GetBranchItems source) 0 = -1 ∧ fromItemID ≠ "") := by
    rw [hidx]
    intro h
    have := h.1
    omega
  have hitems : forkItems c B source fromItemID
      = copyForkItems B ((c.GetBranchItems source).take (k + 1)) 0 := by
    simp [forkItems, hidx]
  rw [createBranch_eq, hB]
  simp only [Bool.false_eq_true, if_false, hnot]
  refine ⟨trivial, forkItems c B source fromItemID, ?_, ?_, ?_⟩
  · simp [lookup, GoMap.get?_set_self]
  · rw [hitems, length_copyForkItems, List.length_take]
    omega
  · intro i hi
    rw [hitems, getElem?_copyForkItems, List.getElem?_take]
    simp [Nat.lt_succ_of_le hi]

theorem createBranch_copies_prefix_witness :
    hasKey sampleMain.BranchMetadata "EDIT" = false ∧
      ((sampleMain.GetBranchItems "MAIN")[1]?).map (fun x => x.PublicID) = some "msg_2" ∧
      (sampleMain.CreateBranch "EDIT" "MAIN" "msg_2" none 4).2 = none ∧
      ∃ items, lookup (sampleMain.CreateBranch "EDIT" "MAIN" "msg_2" none 4).1.Branches "EDIT"
          = some items ∧
        items.length = 1 + 1 ∧
        ∀ i, i ≤ 1 →
          items[i]? = ((sampleMain.GetBranchItems "MAIN")[i]?).map
            (fun s => { s with Branch := "EDIT", SequenceNumber := (i : Int) }) :=
  ⟨by decide, by decide,
    createBranch_copies_prefix sampleMain "EDIT" "MAIN" "msg_2" none 4 1 (by decide) (by decide)
      (by decide)⟩

theorem activeBranch_addItem (c : Conversation) (item : Item) (now : Time) :
    (c.AddItemToActiveBranch item now).ActiveBranch = c.ActiveBranch := by
  unfold Conversation.AddItemToActiveBranch
  cases c.BranchMetadata with
  | none => rfl
  | some bm =>
    simp only
    cases GoMap.get? bm c.ActiveBranch <;> rfl

theorem branches_addItem (c : Conversation) (item : Item) (now : Time) :
    (c.AddItemToActiveBranch item now).Branches
      = some (GoMap.set (c.Branches.getD []) c.ActiveBranch
          (((GoMap.get? (c.Branches.getD []) c.ActiveBranch).getD []) ++
            [{ item with
                Branch := c.ActiveBranch
                SequenceNumber :=
                  ((((GoMap.get? (c.Branches.getD []) c.ActiveBranch).getD []).length : Nat) : Int) }])) := by
  have hd : (match c.Branches with | none => ([] : GoMap (List Item)) | some b => b)
      = c.Branches.getD [] := by
    cases c.Branches <;> rfl
  unfold Conversation.AddItemToActiveBranch
  rw [hd]
  cases c.BranchMetadata with
  | none => rfl
  | some bm =>
    simp only
    cases GoMap.get? bm c.ActiveBranch <;> rfl

theorem items_addItem (c : Conversation) (item : Item) (now : Time) :
    (c.AddItemToActiveBranch item now).Items = c.Items := by
  unfold Conversation.AddItemToActiveBranch
  cases c.BranchMetadata with
  | none => rfl
  | some bm =>
    simp only
    cases GoMap.get? bm c.ActiveBranch <;> rfl

theorem getBranchItems_addItem_ne (c : Conversation) (item : Item) (now : Time) (b : String)
    (hb : b ≠ c.ActiveBranch) :
    (c.AddItemToActiveBranch item now).GetBranchItems b = c.GetBranchItems b := by
  unfold Conversation.GetBranchItems
  rw [branches_addItem, items_addItem]
  simp only [lookup, GoMap.get?_set_ne _ _ _ _ hb]
  cases c.Branches <;> simp [GoMap.get?]

theorem getBranchItems_addItems_ne (adds : List (Item × Time)) (c : Conversation) (b : String)
    (hb : b ≠ c.ActiveBranch) :
    (addItems c adds).GetBranchItems b = c.GetBranchItems b := by
  induction adds generalizing c with
  | nil => rfl
  | cons a rest ih =>
    have hA := activeBranch_addItem c a.1 a.2
    have := ih (c.AddItemToActiveBranch a.1 a.2) (by rw [hA]; exact hb)
    simp only [addItems, List.foldl_cons] at this ⊢
    rw [this, getBranchItems_addItem_ne c a.1 a.2 b hb]

/-- C4: after a successful `CreateBranch(B, source, X, d)` with `B` different from
`source`, the items of the source branch are what they were before the call, and they
stay so after `SwitchBranch(B)` (which succeeds) followed by any number of
`AddItemToActiveBranch` calls. -/
theorem createBranch_leaves_source_items (c : Conversation) (B source X : String)
    (d : Option String) (now : Time) (adds : List (Item × Time))
    (hne : B ≠ source)
    (hok : (c.CreateBranch B source X d now).2 = none) :
    (c.CreateBranch B source X d now).1.GetBranchItems source = c.GetBranchItems source ∧
      ((c.CreateBranch B source X d now).1.SwitchBranch B).2 = none ∧
      ((c.CreateBranch B source X d now).1.SwitchBranch B).1.ActiveBranch = B ∧
      (addItems ((c.CreateBranch B source X d now).1.SwitchBranch B).1 adds).GetBranchItems source
        = c.GetBranchItems source := by
  have hsb : source ≠ B := fun h => hne h.symm
  rw [createBranch_eq] at hok ⊢
  split at hok
  · simp at hok
  · split at hok
    · simp at hok
    · rename_i h1 h2
      simp only [h1, h2, if_false]
      have hsrc : Conversation.GetBranchItems
          { c with
            Branches := some (GoMap.set (c.Branches.getD []) B (forkItems c B source X))
            BranchMetadata := some (GoMap.set (c.BranchMetadata.getD []) B
              { Name := B
                Description := d
                ParentBranch := some source
                ForkedAt := some now
                ForkedFromItemID := some X
                ItemCount := ((forkItems c B source X).length : Int)
                CreatedAt := now
                UpdatedAt := now }) } source = c.GetBranchItems source := by
        simp only [Conversation.GetBranchItems, lookup, GoMap.get?_set_ne _ _ _ _ hsb]
        cases c.Branches <;> simp [GoMap.get?]
      rw [switchBranch_present _ B _ _ rfl (GoMap.get?_set_self _ _ _)]
      refine ⟨hsrc, rfl, rfl, ?_⟩
      rw [getBranchItems_addItems_ne adds _ source hsb]
      exact hsrc

theorem createBranch_leaves_source_items_witness :
    "EDIT" ≠ "MAIN" ∧
      (sampleMain.CreateBranch "EDIT" "MAIN" "msg_2" none 4).2 = none ∧
      (sampleMain.CreateBranch "EDIT" "MAIN" "msg_2" none 4).1.GetBranchItems "MAIN"
        = sampleMain.GetBranchItems "MAIN" ∧
      ((sampleMain.CreateBranch "EDIT" "MAIN" "msg_2" none 4).1.SwitchBranch "EDIT").2 = none ∧
      ((sampleMain.CreateBranch "EDIT" "MAIN" "msg_2" none 4).1.SwitchBranch "EDIT").1.ActiveBranch
        = "EDIT" ∧
      (addItems ((sampleMain.CreateBranch "EDIT" "MAIN" "msg_2" none 4).1.SwitchBranch "EDIT").1
          [(sampleItem "msg_4" "again", 5), (sampleItem "msg_5" "and again", 6)]).GetBranchItems
        "MAIN" = sampleMain.GetBranchItems "MAIN" :=
  ⟨by decide, by decide,
    createBranch_leaves_source_items sampleMain "EDIT" "MAIN" "msg_2" none 4
      [(sampleItem "msg_4" "again", 5), (sampleItem "msg_5" "and again", 6)]
      (by decide) (by decide)⟩

/-- C5, as stated, fails: on a conversation whose `BranchMetadata` map is nil,
`SwitchBranch("EDIT")` returns no error and makes `"EDIT"` the active branch, although
`"EDIT"` is not a key of `BranchMetadata`. -/
theorem switchBranch_nil_metadata_succeeds :
    hasKey legacyConversation.BranchMetadata "EDIT" = false ∧
      legacyConversation.ActiveBranch = "MAIN" ∧
      (legacyConversation.SwitchBranch "EDIT").2 = none ∧
      (legacyConversation.SwitchBranch "EDIT").1.ActiveBranch = "EDIT" := by
  decide

/-- C5, amended: on a conversation whose `BranchMetadata` map is present (not nil),
`SwitchBranch(name)` for a name that is not one of its keys returns the error
`branch not found: <name>` and leaves the conversation, `ActiveBranch` included, unchanged. -/
theorem switchBranch_unknown_fails (c : Conversation) (name : String)
    (hpresent : c.BranchMetadata.isSome = true)
    (hkey : hasKey c.BranchMetadata name = false) :
    (c.SwitchBranch name).2 = some ("branch not found: " ++ name) ∧
      (c.SwitchBranch name).1 = c ∧
      (c.SwitchBranch name).1.ActiveBranch = c.ActiveBranch := by
  obtain ⟨bm, hbm⟩ := Option.isSome_iff_exists.mp hpresent
  have hb : GoMap.get? bm name = none := by
    simpa [hasKey, lookup, hbm] using hkey
  rw [switchBranch_absent c name bm hbm hb]
  exact ⟨rfl, rfl, rfl⟩

theorem switchBranch_unknown_fails_witness :
    sampleMain.BranchMetadata.isSome = true ∧
      hasKey sampleMain.BranchMetadata "EDIT" = false ∧
      (sampleMain.SwitchBranch "EDIT").2 = some ("branch not found: " ++ "EDIT") ∧
      (sampleMain.SwitchBranch "EDIT").1 = sampleMain ∧
      (sampleMain.SwitchBranch "EDIT").1.ActiveBranch = sampleMain.ActiveBranch :=
  ⟨by decide, by decide, switchBranch_unknown_fails sampleMain "EDIT" (by decide) (by decide)⟩

/-! ## Theorems: the registry -/

/-- C7: in every registry state, immediately after `RegisterModel(cfg, p)`,
`Resolve(cfg.ID)` returns the `Route` whose `Model` is `cfg` and whose `Provider` is `p`,
with a nil error. -/
theorem resolve_after_registerModel (r : Registry) (cfg : ModelConfig) (p : Option Provider) :
    (r.RegisterModel cfg p).Resolve cfg.ID = ({ Model := cfg, Provider := p }, none) := by
  simp [Registry.Resolve, Registry.RegisterModel, GoMap.get?_set_self]

theorem models_get?_runRegistryOps (ops : List RegistryOp) (r : Registry) (id : String)
    (hid : id ∉ registeredIDs ops) :
    GoMap.get? (runRegistryOps r ops).models id = GoMap.get? r.models id := by
  induction ops generalizing r with
  | nil => rfl
  | cons op rest ih =>
    cases op with
    | registerProvider p =>
      have := ih (r.RegisterProvider p) (by simpa [registeredIDs] using hid)
      simpa [runRegistryOps, RegistryOp.apply, Registry.RegisterProvider] using this
    | registerModel cfg p =>
      have hne : id ≠ cfg.ID := by
        intro h
        exact hid (by simp [registeredIDs, h])
      have hrest : id ∉ registeredIDs rest := by
        intro h
        exact hid (by simp [registeredIDs, h])
      have := ih (r.RegisterModel cfg p) hrest
      simp only [runRegistryOps, List.foldl_cons, RegistryOp.apply] at this ⊢
      rw [this]
      simp [Registry.RegisterModel, GoMap.get?_set_ne _ _ _ _ hne]
    | setDefaultProvider name =>
      have := ih (r.SetDefaultProvider name) (by simpa [registeredIDs] using hid)
      simpa [runRegistryOps, RegistryOp.apply, Registry.SetDefaultProvider] using this

/-- C8: in every registry state reached from `NewRegistry` by `RegisterProvider`,
`RegisterModel` and `SetDefaultProvider` calls, `Resolve` of a model id that was never the
`ID` of a `RegisterModel` call returns the zero `Route` together with `ErrModelNotFound`:
the default provider plays no part, and `Resolve` is total (it cannot panic). -/
theorem resolve_unregistered (ops : List RegistryOp) (id : String)
    (hid : id ∉ registeredIDs ops) :
    (runRegistryOps NewRegistry ops).Resolve id = (Route.zero, some ErrModelNotFound) := by
  have h := models_get?_runRegistryOps ops NewRegistry id hid
  simp only [Registry.Resolve, h]
  rfl

theorem resolve_unregistered_witness :
    "m3" ∉ registeredIDs sampleRegistryOps ∧
      (runRegistryOps NewRegistry sampleRegistryOps).defaultProvider = "vllm" ∧
      (runRegistryOps NewRegistry sampleRegistryOps).Resolve "m3"
        = (Route.zero, some ErrModelNotFound) :=
  ⟨by decide, by decide, resolve_unregistered sampleRegistryOps "m3" (by decide)⟩

/-! ## Theorems: the chat completion handler -/

/-- C6 at a failing input: a non-streaming request with `Idempotency-Key: k1` is sent
twice, starting without idempotency record. Both calls succeed, the first leaves no
idempotency record behind, the adapter is invoked twice, and the two calls return
different bodies. -/
theorem blocking_retry_invokes_provider_again :
    sampleWorld.idempotency = [] ∧
      blockingAttempt.2.2.succeeded = true ∧ blockingRetry.2.2.succeeded = true ∧
      blockingAttempt.1.idempotency = [] ∧
      blockingAttempt.1.providerCalls.length = 1 ∧
      blockingRetry.1.providerCalls.length = 2 ∧
      blockingAttempt.2.2.statusAndBody = some (200, utf8 "\x7b\"id\":\"a\"\x7d") ∧
      blockingRetry.2.2.statusAndBody = some (200, utf8 "\x7b\"id\":\"b\"\x7d") ∧
      blockingAttempt.2.2.statusAndBody ≠ blockingRetry.2.2.statusAndBody := by
  decide

/-- C9 at a failing input: a provider stream of the two chunks `data: hi` and
`data: [DONE]`, with the conversation `conv_1` attached. The client receives the
conversation chunk after the `data: [DONE]` chunk, not before it. -/
theorem conversation_chunk_written_after_done :
    streamingAttempt.2.2.succeeded = true ∧
      streamingAttempt.2.1.Writer.Body
        = utf8 "data: hi\n\n" ++ utf8 "data: [DONE]\n\n" ++ sampleConversationChunk := by
  decide

/-- C10 at a failing input: for the same stream, sent with `Idempotency-Key: k1`, the saved
idempotency record holds the provider's two chunks only, while the client was also sent
the conversation chunk: the saved bytes are not the bytes written to the client. -/
theorem saved_stream_omits_conversation_chunk :
    streamingAttempt.2.2.succeeded = true ∧
      streamingAttempt.1.idempotency.map (fun r => r.Response)
        = [utf8 "data: hi\n\n" ++ utf8 "data: [DONE]\n\n"] ∧
      streamingAttempt.2.1.Writer.Body
        = utf8 "data: hi\n\n" ++ utf8 "data: [DONE]\n\n" ++ sampleConversationChunk ∧
      streamingAttempt.1.idempotency.map (fun r => r.Response)
        ≠ [streamingAttempt.2.1.Writer.Body] := by
  decide

/-! ## Theorems: sequence numbers, errors of `CreateBranch`, effect of an append -/

theorem seqInv_new (publicID : String) (userID : Nat) (title : Option String)
    (metadata : Option (GoMap String)) (now : Time) :
    SeqInv (NewConversation publicID userID title metadata now) := by
  intro b items hb
  simp [NewConversation, lookup, GoMap.get?] at hb

theorem seqInv_addItem (c : Conversation) (item : Item) (now : Time) (h : SeqInv c) :
    SeqInv (c.AddItemToActiveBranch item now) := by
  intro b items hb i x hx
  rw [branches_addItem] at hb
  simp only [lookup] at hb
  by_cases hba : b = c.ActiveBranch
  · subst hba
    rw [GoMap.get?_set_self] at hb
    cases hb
    have hprev : ∀ (j : Nat) (y : Item), ((GoMap.get? (c.Branches.getD []) c.ActiveBranch).getD [])[j]? = some y →
        y.SequenceNumber = (j : Int) ∧ y.Branch = c.ActiveBranch := by
      intro j y hy
      cases hget : GoMap.get? (c.Branches.getD []) c.ActiveBranch with
      | none => simp [hget] at hy
      | some cur =>
        have hl : lookup c.Branches c.ActiveBranch = some cur := by
          cases hB : c.Branches with
          | none => simp [hB, GoMap.get?] at hget
          | some m => simpa [lookup, hB] using hget
        simp only [hget, Option.getD_some] at hy
        exact h _ _ hl j y hy
    by_cases hi : i < ((GoMap.get? (c.Branches.getD []) c.ActiveBranch).getD []).length
    · rw [List.getElem?_append_left hi] at hx
      exact hprev i x hx
    · rw [List.getElem?_append_right (Nat.le_of_not_lt hi)] at hx
      cases hd : i - ((GoMap.get? (c.Branches.getD []) c.ActiveBranch).getD []).length with
      | zero =>
        rw [hd] at hx
        simp only [List.getElem?_cons_zero, Option.some.injEq] at hx
        subst hx
        have : i = ((GoMap.get? (c.Branches.getD []) c.ActiveBranch).getD []).length := by omega
        exact ⟨by simp [this], rfl⟩
      | succ k =>
        rw [hd] at hx
        simp at hx
  · rw [GoMap.get?_set_ne _ _ _ _ hba] at hb
    have hl : lookup c.Branches b = some items := by
      cases hB : c.Branches with
      | none => simp [hB, GoMap.get?] at hb
      | some m => simpa [lookup, hB] using hb
    exact h _ _ hl i x hx

theorem seqInv_switchBranch (c : Conversation) (b : String) (h : SeqInv c) :
    SeqInv (c.SwitchBranch b).1 := by
  have hB : (c.SwitchBranch b).1.Branches = c.Branches := by
    unfold Conversation.SwitchBranch
    cases c.BranchMetadata with
    | none => rfl
    | some bm =>
      simp only
      cases GoMap.get? bm b <;> rfl
  intro b' items hb
  rw [hB] at hb
  exact h _ _ hb

theorem lookup_withMaps_branches (c : Conversation) (b : String) :
    lookup (withMaps c).Branches b = lookup c.Branches b := by
  cases hB : c.Branches <;> simp [withMaps, lookup, hB, GoMap.get?]

theorem seqInv_createBranch (c : Conversation) (n s f : String) (d : Option String)
    (now : Time) (h : SeqInv c) : SeqInv (c.CreateBranch n s f d now).1 := by
  have hwm : SeqInv (withMaps c) := by
    intro b items hb
    rw [lookup_withMaps_branches] at hb
    exact h _ _ hb
  rw [createBranch_eq]
  split
  · exact hwm
  · split
    · exact hwm
    · intro b items hb i x hx
      simp only [lookup] at hb
      by_cases hbn : b = n
      · subst hbn
        rw [GoMap.get?_set_self] at hb
        cases hb
        unfold forkItems at hx
        split at hx
        · rw [getElem?_copyForkItems] at hx
          cases hsrc : (List.take ((findForkIndex f (c.GetBranchItems s) 0).toNat + 1)
              (c.GetBranchItems s))[i]? with
          | none => simp [hsrc] at hx
          | some y =>
            simp only [hsrc, Option.map_some', Option.some.injEq] at hx
            subst hx
            exact ⟨by simp, rfl⟩
        · simp at hx
      · rw [GoMap.get?_set_ne _ _ _ _ hbn] at hb
        have hl : lookup c.Branches b = some items := by
          cases hB : c.Branches with
          | none => simp [hB, GoMap.get?] at hb
          | some m => simpa [lookup, hB] using hb
        exact h _ _ hl i x hx

theorem seqInv_runOps (ops : List ConvOp) (c : Conversation) (h : SeqInv c) :
    SeqInv (runOps c ops) := by
  induction ops generalizing c with
  | nil => exact h
  | cons op rest ih =>
    refine ih _ ?_
    cases op with
    | addItem item now => exact seqInv_addItem c item now h
    | switchBranch b => exact seqInv_switchBranch c b h
    | createBranch n s f d now => exact seqInv_createBranch c n s f d now h

/-- C11: in every conversation state reached from `NewConversation` by any sequence of
`AddItemToActiveBranch`, `SwitchBranch` and `CreateBranch` calls, for every branch `b` and
every index `i` below the length of `Branches[b]`, the item at index `i` has
`SequenceNumber` equal to `i` and `Branch` equal to `b`. -/
theorem reachable_items_carry_their_position (publicID : String) (userID : Nat)
    (title : Option String) (metadata : Option (GoMap String)) (now : Time)
    (ops : List ConvOp) (b : String) (items : List Item) (i : Nat) (x : Item)
    (hb : lookup (runOps (NewConversation publicID userID title metadata now) ops).Branches b
      = some items)
    (hx : items[i]? = some x) :
    x.SequenceNumber = (i : Int) ∧ x.Branch = b :=
  seqInv_runOps ops _ (seqInv_new publicID userID title metadata now) b items hb i x hx

theorem reachable_items_carry_their_position_witness :
    lookup (runOps (NewConversation "conv_1" 7 none none 0) sampleOps).Branches "EDIT"
        = some sampleEditItems ∧
      sampleEditItems[1]? = some sampleEditItem ∧
      sampleEditItem.SequenceNumber = ((1 : Nat) : Int) ∧ sampleEditItem.Branch = "EDIT" :=
  ⟨by decide, by decide,
    reachable_items_carry_their_position "conv_1" 7 none none 0 sampleOps "EDIT"
      sampleEditItems 1 sampleEditItem (by decide) (by decide)⟩

theorem findForkIndex_nonneg_of_mem (f : String) (items : List Item) (i : Nat)
    (h : ∃ x ∈ items, x.PublicID = f) : (i : Int) ≤ findForkIndex f items i := by
  induction items generalizing i with
  | nil => simp at h
  | cons y rest ih =>
    by_cases hy : y.PublicID = f
    · simp [findForkIndex, hy]
    · have hrest : ∃ x ∈ rest, x.PublicID = f := by
        obtain ⟨x, hx, hxf⟩ := h
        rcases List.mem_cons.mp hx with rfl | hx'
        · exact absurd hxf hy
        · exact ⟨x, hx', hxf⟩
      have := ih (i + 1) hrest
      simp only [findForkIndex, hy, if_false]
      omega

theorem findForkIndex_eq_neg_one_iff (f : String) (items : List Item) (i : Nat) :
    findForkIndex f items i = -1 ↔ ∀ x ∈ items, x.PublicID ≠ f := by
  constructor
  · intro h x hx hxf
    have := findForkIndex_nonneg_of_mem f items i ⟨x, hx, hxf⟩
    omega
  · intro h
    induction items generalizing i with
    | nil => rfl
    | cons y rest ih =>
      have hy : ¬ y.PublicID = f := h y (List.mem_cons_self _ _)
      simp only [findForkIndex, hy, if_false]
      exact ih (i + 1) (fun x hx => h x (List.mem_cons_of_mem _ hx))

/-- C12: for every conversation and all arguments, the error that `CreateBranch` returns
is `branch already exists` when `newName` is a key of `BranchMetadata`; otherwise
`item not found` when `fromItemID` is non-empty and no item of the source branch has that
`PublicID`; otherwise nil. So it returns an error if and only if one of the two
conditions holds, and the already-exists check takes precedence. -/
theorem createBranch_error_cases (c : Conversation) (newName source fromItemID : String)
    (d : Option String) (now : Time) :
    (c.CreateBranch newName source fromItemID d now).2
        = (if hasKey c.BranchMetadata newName = true then
            some ("branch already exists: " ++ newName)
          else if fromItemID ≠ "" ∧ ∀ x ∈ c.GetBranchItems source, x.PublicID ≠ fromItemID then
            some ("item not found: " ++ fromItemID)
          else none) ∧
      ((c.CreateBranch newName source fromItemID d now).2.isSome = true ↔
        (hasKey c.BranchMetadata newName = true ∨
          (fromItemID ≠ "" ∧ ∀ x ∈ c.GetBranchItems source, x.PublicID ≠ fromItemID))) := by
  have hiff := findForkIndex_eq_neg_one_iff fromItemID (c.GetBranchItems source) 0
  rw [createBranch_eq]
  by_cases hk : hasKey c.BranchMetadata newName = true
  · rw [if_pos hk, if_pos hk]
    exact ⟨rfl, ⟨fun _ => Or.inl hk, fun _ => rfl⟩⟩
  · by_cases hnf : fromItemID ≠ "" ∧ ∀ x ∈ c.GetBranchItems source, x.PublicID ≠ fromItemID
    · have h1 : findForkIndex fromItemID (c.GetBranchItems source) 0 = -1 ∧ fromItemID ≠ "" :=
        ⟨hiff.mpr hnf.2, hnf.1⟩
      rw [if_neg hk, if_pos h1, if_neg hk, if_pos hnf]
      exact ⟨rfl, ⟨fun _ => Or.inr hnf, fun _ => rfl⟩⟩
    · have h1 : ¬ (findForkIndex fromItemID (c.GetBranchItems source) 0 = -1
          ∧ fromItemID ≠ "") := by
        intro h
        exact hnf ⟨h.2, hiff.mp h.1⟩
      rw [if_neg hk, if_neg h1, if_neg hk, if_neg hnf]
      refine ⟨rfl, ⟨fun h => ?_, fun h => ?_⟩⟩
      · simp at h
      · rcases h with h | h
        · exact absurd h hk
        · exact absurd h hnf

/-- C13 at a failing input: a conversation with one flat item `msg_1`, no entry in
`Branches`, and `MAIN` active and described in `BranchMetadata` with `ItemCount` 1. Read
through `GetActiveBranchItems` and through `GetBranchItems`, the active branch holds
`msg_1` before the call. After `AddItemToActiveBranch(msg_2)` both readers return `msg_2`
alone, with `SequenceNumber` 0: the previous item is no longer in the list and the number
given is not the previous length 1, while `ItemCount` has gone from 1 to 2. Likewise on a
conversation as the database loader builds it, with items on `MAIN` only and `EDIT`
active: `GetActiveBranchItems` returns `msg_1` before the call and `msg_2` alone after. -/
theorem addItem_drops_flat_items :
    hasKey flatConversation.BranchMetadata flatConversation.ActiveBranch = true ∧
      flatConversation.GetActiveBranchItems = [sampleItem "msg_1" "hello"] ∧
      flatConversation.GetBranchItems flatConversation.ActiveBranch
        = [sampleItem "msg_1" "hello"] ∧
      (flatConversation.AddItemToActiveBranch (sampleItem "msg_2" "again") 5).GetActiveBranchItems
        = [{ sampleItem "msg_2" "again" with Branch := "MAIN", SequenceNumber := 0 }] ∧
      (flatConversation.AddItemToActiveBranch (sampleItem "msg_2" "again") 5).GetBranchItems
          flatConversation.ActiveBranch
        = [{ sampleItem "msg_2" "again" with Branch := "MAIN", SequenceNumber := 0 }] ∧
      (lookup flatConversation.BranchMetadata "MAIN").map (fun m => m.ItemCount) = some 1 ∧
      (lookup (flatConversation.AddItemToActiveBranch (sampleItem "msg_2" "again") 5).BranchMetadata
          "MAIN").map (fun m => m.ItemCount) = some 2 ∧
      hasKey loadedConversation.BranchMetadata loadedConversation.ActiveBranch = true ∧
      loadedConversation.GetActiveBranchItems
        = [{ sampleItem "msg_1" "hello" with Branch := "MAIN" }] ∧
      (loadedConversation.AddItemToActiveBranch (sampleItem "msg_2" "again") 5).GetActiveBranchItems
        = [{ sampleItem "msg_2" "again" with Branch := "EDIT", SequenceNumber := 0 }] := by
  decide

/-! ## Theorems: registering a model twice -/

theorem keyedByID_apply (r : Registry) (op : RegistryOp) (h : r.KeyedByID) :
    (RegistryOp.apply r op).KeyedByID := by
  cases op with
  | registerProvider p => exact h
  | registerModel cfg p =>
    intro e he
    simp only [RegistryOp.apply, Registry.RegisterModel, GoMap.set, List.mem_cons] at he
    rcases he with rfl | he
    · rfl
    · exact h e (List.mem_filter.mp he).1
  | setDefaultProvider name => exact h

theorem keyedByID_runRegistryOps (ops : List RegistryOp) (r : Registry) (h : r.KeyedByID) :
    (runRegistryOps r ops).KeyedByID := by
  induction ops generalizing r with
  | nil => exact h
  | cons op rest ih => exact ih _ (keyedByID_apply r op h)

theorem keyedByID_new : NewRegistry.KeyedByID := by
  intro e he
  simp [NewRegistry] at he

theorem models_filter_after_register (r : Registry) (cfg : ModelConfig) (p : Option Provider)
    (h : r.KeyedByID) :
    (r.RegisterModel cfg p).Models.filter (fun m => decide (m.ID = cfg.ID)) = [cfg] := by
  have hrest : ∀ (l : GoMap Route), (∀ e ∈ l, e.2.Model.ID = e.1) →
      (((l.filter (fun e => !decide (e.1 = cfg.ID))).map Prod.snd).map (fun rt => rt.Model)).filter
        (fun m => decide (m.ID = cfg.ID)) = [] := by
    intro l hl
    induction l with
    | nil => rfl
    | cons e rest ih =>
      have he := hl e (List.mem_cons_self _ _)
      have ih' := ih (fun e' he' => hl e' (List.mem_cons_of_mem _ he'))
      by_cases hk : e.1 = cfg.ID
      · simpa [List.filter, hk] using ih'
      · have hm : ¬ e.2.Model.ID = cfg.ID := by rw [he]; exact hk
        simpa [List.filter, hk, hm] using ih'
  have := hrest r.models h
  simp only [Registry.Models, Registry.RegisterModel, GoMap.values, GoMap.set, List.map_cons,
    List.filter_cons, decide_True, if_true, this]

/-- C15: in every registry state (reached from `NewRegistry` by registration calls), for
configs `c1` and `c2` with the same `ID`: after `RegisterModel(c1, p1)` followed by
`RegisterModel(c2, p2)`, `Resolve(c1.ID)` returns the route of `(c2, p2)`, `Models()`
contains exactly one config with that `ID` (it is `c2`), and `Resolve` of every other id
gives what it gave before the two calls. -/
theorem registerModel_twice_last_writer_wins (ops : List RegistryOp) (c1 c2 : ModelConfig)
    (p1 p2 : Option Provider) (hid : c1.ID = c2.ID) :
    (((runRegistryOps NewRegistry ops).RegisterModel c1 p1).RegisterModel c2 p2).Resolve c1.ID
        = ({ Model := c2, Provider := p2 }, none) ∧
      (((runRegistryOps NewRegistry ops).RegisterModel c1 p1).RegisterModel c2 p2).Models.filter
          (fun m => decide (m.ID = c1.ID)) = [c2] ∧
      ∀ id, id ≠ c1.ID →
        (((runRegistryOps NewRegistry ops).RegisterModel c1 p1).RegisterModel c2 p2).Resolve id
          = (runRegistryOps NewRegistry ops).Resolve id := by
  have hwf := keyedByID_runRegistryOps ops NewRegistry keyedByID_new
  have hwf1 : ((runRegistryOps NewRegistry ops).RegisterModel c1 p1).KeyedByID :=
    keyedByID_apply _ (.registerModel c1 p1) hwf
  refine ⟨?_, ?_, ?_⟩
  · rw [hid]
    simp [Registry.Resolve, Registry.RegisterModel, GoMap.get?_set_self]
  · rw [hid]
    exact models_filter_after_register _ c2 p2 hwf1
  · intro id hne
    have hne2 : id ≠ c2.ID := by rw [← hid]; exact hne
    simp only [Registry.Resolve, Registry.RegisterModel, GoMap.get?_set_ne _ _ _ _ hne2,
      GoMap.get?_set_ne _ _ _ _ hne]

theorem registerModel_twice_last_writer_wins_witness :
    ("m1" : String) = "m1" ∧
      (((runRegistryOps NewRegistry sampleRegistryOps).RegisterModel
          { ID := "m1", ServedName := "old", Capabilities := [] } none).RegisterModel
          { ID := "m1", ServedName := "new", Capabilities := [] } (some sampleProvider)).Models.filter
          (fun m => decide (m.ID = "m1"))
        = [{ ID := "m1", ServedName := "new", Capabilities := [] }] :=
  ⟨rfl,
    (registerModel_twice_last_writer_wins sampleRegistryOps
      { ID := "m1", ServedName := "old", Capabilities := [] }
      { ID := "m1", ServedName := "new", Capabilities := [] } none (some sampleProvider) rfl).2.1⟩

/-! ## Theorems: the upstream read loop -/

theorem readBytes_cons_ne (delim x : UInt8) (rest : Bytes) (hx : ¬ x = delim) :
    readBytes delim (x :: rest)
      = (x :: (readBytes delim rest).1, (readBytes delim rest).2.1, (readBytes delim rest).2.2) := by
  simp [readBytes, hx]

theorem readBytes_cons_eq (delim x : UInt8) (rest : Bytes) (hx : x = delim) :
    readBytes delim (x :: rest) = ([x], rest, true) := by
  simp [readBytes, hx]

theorem readBytes_append (delim : UInt8) (body : Bytes) :
    (readBytes delim body).1 ++ (readBytes delim body).2.1 = body := by
  induction body with
  | nil => rfl
  | cons x rest ih =>
    by_cases hx : x = delim
    · rw [readBytes_cons_eq delim x rest hx]; rfl
    · rw [readBytes_cons_ne delim x rest hx]
      simp [ih]

theorem readBytes_found (delim : UInt8) (body : Bytes)
    (h : (readBytes delim body).2.2 = true) :
    (readBytes delim body).1 ≠ [] ∧ (readBytes delim body).2.1.length < body.length := by
  induction body with
  | nil => simp [readBytes] at h
  | cons x rest ih =>
    by_cases hx : x = delim
    · rw [readBytes_cons_eq delim x rest hx]
      exact ⟨by simp, by simp⟩
    · rw [readBytes_cons_ne delim x rest hx] at h ⊢
      have := (ih h).2
      refine ⟨by simp, ?_⟩
      simp only [List.length_cons]
      omega

theorem readBytes_not_found (delim : UInt8) (body : Bytes)
    (h : (readBytes delim body).2.2 = false) :
    (readBytes delim body).1 = body := by
  induction body with
  | nil => rfl
  | cons x rest ih =>
    by_cases hx : x = delim
    · rw [readBytes_cons_eq delim x rest hx] at h
      simp at h
    · rw [readBytes_cons_ne delim x rest hx] at h ⊢
      simp [ih h]

theorem linesFrom_readBytes (cur body : Bytes) :
    linesFrom cur body
      = if (readBytes 0x0A body).2.2 = true then
          (cur ++ (readBytes 0x0A body).1) :: linesFrom [] (readBytes 0x0A body).2.1
        else if cur ++ (readBytes 0x0A body).1 = [] then []
        else [cur ++ (readBytes 0x0A body).1] := by
  induction body generalizing cur with
  | nil => simp [linesFrom, readBytes]
  | cons x rest ih =>
    by_cases hx : x = 0x0A
    · simp [linesFrom, readBytes, hx]
    · rw [linesFrom, if_neg hx, ih (cur ++ [x])]
      simp [readBytes, hx]

theorem stream_eq_invokeAll {σ : Type} (cb : σ → Bytes → σ × Option String)
    (hcb : ∀ s line, (cb s line).2 = none) (fuel : Nat) :
    ∀ (n : Nat) (body : Bytes) (st : σ), body.length < fuel →
      httpStreamResponse.Stream (fun _ => none) none cb fuel n body st
        = some (invokeAll cb st (linesOf body), none) := by
  induction fuel with
  | zero => intro n body st h; omega
  | succ fuel ih =>
    intro n body st hlen
    have hsplit := linesFrom_readBytes [] body
    have happ := readBytes_append 0x0A body
    have hcall : ∀ line, cb st line = ((cb st line).1, none) := fun line =>
      Prod.ext rfl (hcb st line)
    unfold httpStreamResponse.Stream
    simp only
    cases hfound : (readBytes 0x0A body).2.2 with
    | true =>
      obtain ⟨hne, hshort⟩ := readBytes_found 0x0A body hfound
      have hpos : (readBytes 0x0A body).1.length > 0 := List.length_pos.mpr hne
      rw [if_pos hpos, hcall]
      simp only [if_true]
      rw [ih (n + 1) _ _ (Nat.lt_of_lt_of_le hshort (Nat.le_of_lt_succ hlen))]
      simp only [linesOf, hsplit, hfound, if_true, List.nil_append, invokeAll, List.foldl_cons]
    | false =>
      have hall := readBytes_not_found 0x0A body hfound
      by_cases hempty : (readBytes 0x0A body).1 = []
      · have hzero : ¬ (readBytes 0x0A body).1.length > 0 := by simp [hempty]
        rw [if_neg hzero]
        simp [linesOf, hsplit, hfound, hempty, invokeAll]
      · have hpos : (readBytes 0x0A body).1.length > 0 := List.length_pos.mpr hempty
        rw [if_pos hpos, hcall]
        simp [linesOf, hsplit, hfound, hempty, invokeAll]

theorem join_linesFrom (cur body : Bytes) : (linesFrom cur body).flatten = cur ++ body := by
  induction body generalizing cur with
  | nil =>
    by_cases hc : cur = []
    · simp [linesFrom, hc]
    · simp [linesFrom, hc]
  | cons x rest ih =>
    by_cases hx : x = 0x0A
    · simp [linesFrom, hx, ih]
    · rw [linesFrom, if_neg hx, ih]
      simp

theorem linesFrom_shape (cur body : Bytes) (hcur : (0x0A : UInt8) ∉ cur) :
    ∀ l ∈ linesFrom cur body, l ≠ [] ∧ (0x0A : UInt8) ∉ l.dropLast := by
  induction body generalizing cur with
  | nil =>
    intro l hl
    by_cases hc : cur = []
    · simp [linesFrom, hc] at hl
    · simp only [linesFrom, hc, if_false, List.mem_singleton] at hl
      subst hl
      exact ⟨hc, fun h => hcur (List.dropLast_subset _ h)⟩
  | cons x rest ih =>
    intro l hl
    by_cases hx : x = 0x0A
    · rw [linesFrom, if_pos hx] at hl
      rcases List.mem_cons.mp hl with rfl | hl'
      · exact ⟨by simp, by simpa using hcur⟩
      · exact ih [] (by simp) l hl'
    · rw [linesFrom, if_neg hx] at hl
      refine ih (cur ++ [x]) ?_ l hl
      intro h
      rcases List.mem_append.mp h with h | h
      · exact hcur h
      · exact hx (List.mem_singleton.mp h).symm

theorem linesFrom_terminated (cur body : Bytes) :
    ∀ l ∈ (linesFrom cur body).dropLast, l.getLast? = some 0x0A := by
  induction body generalizing cur with
  | nil =>
    intro l hl
    by_cases hc : cur = []
    · simp [linesFrom, hc] at hl
    · simp [linesFrom, hc] at hl
  | cons x rest ih =>
    intro l hl
    by_cases hx : x = 0x0A
    · rw [linesFrom, if_pos hx] at hl
      cases hrest : linesFrom [] rest with
      | nil => simp [hrest] at hl
      | cons a t =>
        rw [hrest, List.dropLast_cons₂] at hl
        rcases List.mem_cons.mp hl with rfl | hl'
        · simp [hx]
        · exact ih [] l (by rw [hrest]; exact hl')
    · rw [linesFrom, if_neg hx] at hl
      exact ih (cur ++ [x]) l hl

/-- C16: for an upstream body read without transport error, a context that is not
cancelled and a callback that never fails, `httpStreamResponse.Stream` (given one round of
fuel more than the body has bytes) returns nil after invoking the callback on the lines of
the body in order, once per newline-terminated line and once more for a non-empty
unterminated remainder: the callback arguments are never empty, hold no newline except as
their last byte, all but the last end with a newline, and their concatenation is the
body. -/
theorem stream_invokes_callback_per_line {σ : Type} (body : Bytes)
    (cb : σ → Bytes → σ × Option String) (st : σ) (fuel : Nat)
    (hcb : ∀ s line, (cb s line).2 = none) (hfuel : body.length < fuel) :
    httpStreamResponse.Stream (fun _ => none) none cb fuel 0 body st
        = some (invokeAll cb st (linesOf body), none) ∧
      (linesOf body).flatten = body ∧
      (∀ l ∈ linesOf body, l ≠ [] ∧ (0x0A : UInt8) ∉ l.dropLast) ∧
      (∀ l ∈ (linesOf body).dropLast, l.getLast? = some 0x0A) :=
  ⟨stream_eq_invokeAll cb hcb fuel 0 body st hfuel,
    by simpa [linesOf] using join_linesFrom [] body,
    linesFrom_shape [] body (by simp),
    linesFrom_terminated [] body⟩

theorem stream_invokes_callback_per_line_witness :
    (∀ s line, (recordLines s line).2 = none) ∧ sampleBody.length < 30 ∧
      invokeAll recordLines [] (linesOf sampleBody)
        = [utf8 "data: a\n", utf8 "\n", utf8 "data: [DONE]"] ∧
      httpStreamResponse.Stream (fun _ => none) none recordLines 30 0 sampleBody []
        = some (invokeAll recordLines [] (linesOf sampleBody), none) :=
  ⟨fun _ _ => rfl, by decide, by decide,
    (stream_invokes_callback_per_line sampleBody recordLines [] 30 (fun _ _ => rfl)
      (by decide)).1⟩

/-! ## Theorems: the payload sent to the provider -/

theorem GoMap.get?_set_ite {V : Type} (m : GoMap V) (k k' : String) (v : V) :
    GoMap.get? (GoMap.set m k v) k' = if k' = k then some v else GoMap.get? m k' := by
  by_cases h : k' = k
  · subst h; simp [GoMap.get?_set_self]
  · simp [h, GoMap.get?_set_ne _ _ _ _ h]

theorem GoMap.get?_eq_none_of_not_mem {V : Type} (m : GoMap V) (k : String)
    (h : k ∉ m.map Prod.fst) : GoMap.get? m k = none := by
  induction m with
  | nil => rfl
  | cons e rest ih =>
    have h1 : ¬ e.1 = k := fun heq => h (by simp [heq])
    have h2 : k ∉ rest.map Prod.fst := fun hm => h (by simp at hm ⊢; exact Or.inr hm)
    simp [GoMap.get?, h1, ih h2]

theorem GoMap.nodup_set {V : Type} (m : GoMap V) (k : String) (v : V)
    (h : (m.map Prod.fst).Nodup) : ((GoMap.set m k v).map Prod.fst).Nodup := by
  simp only [GoMap.set, List.map_cons, List.nodup_cons]
  constructor
  · intro hk
    obtain ⟨e, he, hek⟩ := List.mem_map.mp hk
    have := (List.mem_filter.mp he).2
    simp [hek] at this
  · exact h.sublist ((List.filter_sublist _).map _)

theorem GoMap.get?_foldl_set {V : Type} (es : GoMap V) (hnd : (es.map Prod.fst).Nodup)
    (p : GoMap V) (k : String) :
    GoMap.get? (es.foldl (fun payload kv => GoMap.set payload kv.1 kv.2) p) k
      = (GoMap.get? es k).orElse (fun _ => GoMap.get? p k) := by
  induction es generalizing p with
  | nil => rfl
  | cons e rest ih =>
    have hnd' : e.1 ∉ rest.map Prod.fst ∧ (rest.map Prod.fst).Nodup := List.nodup_cons.mp hnd
    rw [List.foldl_cons, ih hnd'.2, GoMap.get?_set_ite]
    by_cases hk : e.1 = k
    · have hnone : GoMap.get? rest k = none :=
        GoMap.get?_eq_none_of_not_mem rest k (by rw [← hk]; exact hnd'.1)
      simp [GoMap.get?, hk, hnone]
    · have hk' : ¬ k = e.1 := fun h => hk h.symm
      simp [GoMap.get?, hk, hk']

theorem extrasOf_nodup (req : chatrequests.ChatCompletionRequest) :
    ((extrasOf req).map Prod.fst).Nodup := by
  unfold extrasOf
  simp only
  split <;> split <;> split <;> split <;>
    first
      | exact List.nodup_nil
      | (repeat apply GoMap.nodup_set
         exact List.nodup_nil)

theorem get?_extrasOf_model (req : chatrequests.ChatCompletionRequest) :
    GoMap.get? (extrasOf req) "model" = none := by
  unfold extrasOf
  cases req.FrequencyPenalty <;> cases req.PresencePenalty <;> cases req.Stop.isNil <;>
    cases req.N <;> simp [GoMap.get?_set_ite, GoMap.get?]

theorem get?_payloadHead_model (req : ChatCompletionRequest) :
    GoMap.get? (OpenAIProvider.payloadHead req) "model" = some (.str req.Model) := by
  unfold OpenAIProvider.payloadHead
  cases req.Temperature <;> cases req.TopP <;> cases req.MaxTokens <;>
    simp [GoMap.get?_set_ite, GoMap.get?]

theorem get?_extrasOf_messages (req : chatrequests.ChatCompletionRequest) :
    GoMap.get? (extrasOf req) "messages" = none := by
  unfold extrasOf
  cases req.FrequencyPenalty <;> cases req.PresencePenalty <;> cases req.Stop.isNil <;>
    cases req.N <;> simp [GoMap.get?_set_ite, GoMap.get?]

theorem get?_payloadHead_messages (req : ChatCompletionRequest) :
    GoMap.get? (OpenAIProvider.payloadHead req) "messages" = some (.list (req.Messages.map GoAny.dict)) := by
  unfold OpenAIProvider.payloadHead
  cases req.Temperature <;> cases req.TopP <;> cases req.MaxTokens <;>
    simp [GoMap.get?_set_ite, GoMap.get?]

theorem get?_extrasOf_temperature (req : chatrequests.ChatCompletionRequest) :
    GoMap.get? (extrasOf req) "temperature" = none := by
  unfold extrasOf
  cases req.FrequencyPenalty <;> cases req.PresencePenalty <;> cases req.Stop.isNil <;>
    cases req.N <;> simp [GoMap.get?_set_ite, GoMap.get?]

theorem get?_payloadHead_temperature (req : ChatCompletionRequest) :
    GoMap.get? (OpenAIProvider.payloadHead req) "temperature" = req.Temperature.map GoAny.float32 := by
  unfold OpenAIProvider.payloadHead
  cases req.Temperature <;> cases req.TopP <;> cases req.MaxTokens <;>
    simp [GoMap.get?_set_ite, GoMap.get?]

theorem get?_extrasOf_top_p (req : chatrequests.ChatCompletionRequest) :
    GoMap.get? (extrasOf req) "top_p" = none := by
  unfold extrasOf
  cases req.FrequencyPenalty <;> cases req.PresencePenalty <;> cases req.Stop.isNil <;>
    cases req.N <;> simp [GoMap.get?_set_ite, GoMap.get?]

theorem get?_payloadHead_top_p (req : ChatCompletionRequest) :
    GoMap.get? (OpenAIProvider.payloadHead req) "top_p" = req.TopP.map GoAny.float32 := by
  unfold OpenAIProvider.payloadHead
  cases req.Temperature <;> cases req.TopP <;> cases req.MaxTokens <;>
    simp [GoMap.get?_set_ite, GoMap.get?]

theorem get?_extrasOf_max_tokens (req : chatrequests.ChatCompletionRequest) :
    GoMap.get? (extrasOf req) "max_tokens" = none := by
  unfold extrasOf
  cases req.FrequencyPenalty <;> cases req.PresencePenalty <;> cases req.Stop.isNil <;>
    cases req.N <;> simp [GoMap.get?_set_ite, GoMap.get?]

theorem get?_payloadHead_max_tokens (req : ChatCompletionRequest) :
    GoMap.get? (OpenAIProvider.payloadHead req) "max_tokens" = req.MaxTokens.map GoAny.int := by
  unfold OpenAIProvider.payloadHead
  cases req.Temperature <;> cases req.TopP <;> cases req.MaxTokens <;>
    simp [GoMap.get?_set_ite, GoMap.get?]

theorem get?_extrasOf_frequency_penalty (req : chatrequests.ChatCompletionRequest) :
    GoMap.get? (extrasOf req) "frequency_penalty" = req.FrequencyPenalty.map GoAny.float32 := by
  unfold extrasOf
  cases req.FrequencyPenalty <;> cases req.PresencePenalty <;> cases req.Stop.isNil <;>
    cases req.N <;> simp [GoMap.get?_set_ite, GoMap.get?]

theorem get?_payloadHead_frequency_penalty (req : ChatCompletionRequest) :
    GoMap.get? (OpenAIProvider.payloadHead req) "frequency_penalty" = none := by
  unfold OpenAIProvider.payloadHead
  cases req.Temperature <;> cases req.TopP <;> cases req.MaxTokens <;>
    simp [GoMap.get?_set_ite, GoMap.get?]

theorem get?_extrasOf_presence_penalty (req : chatrequests.ChatCompletionRequest) :
    GoMap.get? (extrasOf req) "presence_penalty" = req.PresencePenalty.map GoAny.float32 := by
  unfold extrasOf
  cases req.FrequencyPenalty <;> cases req.PresencePenalty <;> cases req.Stop.isNil <;>
    cases req.N <;> simp [GoMap.get?_set_ite, GoMap.get?]

theorem get?_payloadHead_presence_penalty (req : ChatCompletionRequest) :
    GoMap.get? (OpenAIProvider.payloadHead req) "presence_penalty" = none := by
  unfold OpenAIProvider.payloadHead
  cases req.Temperature <;> cases req.TopP <;> cases req.MaxTokens <;>
    simp [GoMap.get?_set_ite, GoMap.get?]

theorem get?_extrasOf_stop (req : chatrequests.ChatCompletionRequest) :
    GoMap.get? (extrasOf req) "stop" = (if req.Stop.isNil then none else some req.Stop) := by
  unfold extrasOf
  cases req.FrequencyPenalty <;> cases req.PresencePenalty <;> cases req.Stop.isNil <;>
    cases req.N <;> simp [GoMap.get?_set_ite, GoMap.get?]

theorem get?_payloadHead_stop (req : ChatCompletionRequest) :
    GoMap.get? (OpenAIProvider.payloadHead req) "stop" = none := by
  unfold OpenAIProvider.payloadHead
  cases req.Temperature <;> cases req.TopP <;> cases req.MaxTokens <;>
    simp [GoMap.get?_set_ite, GoMap.get?]

theorem get?_extrasOf_n (req : chatrequests.ChatCompletionRequest) :
    GoMap.get? (extrasOf req) "n" = req.N.map GoAny.int := by
  unfold extrasOf
  cases req.FrequencyPenalty <;> cases req.PresencePenalty <;> cases req.Stop.isNil <;>
    cases req.N <;> simp [GoMap.get?_set_ite, GoMap.get?]

theorem get?_payloadHead_n (req : ChatCompletionRequest) :
    GoMap.get? (OpenAIProvider.payloadHead req) "n" = none := by
  unfold OpenAIProvider.payloadHead
  cases req.Temperature <;> cases req.TopP <;> cases req.MaxTokens <;>
    simp [GoMap.get?_set_ite, GoMap.get?]

theorem get?_payload_buildProviderRequest (h : ChatHandler)
    (req : chatrequests.ChatCompletionRequest) (route : Route) (k : String) :
    GoMap.get? (OpenAIProvider.payload (h.buildProviderRequest req route)) k
      = (GoMap.get? (extrasOf req) k).orElse
          (fun _ => GoMap.get? (OpenAIProvider.payloadHead (h.buildProviderRequest req route)) k) := by
  have hE : (h.buildProviderRequest req route).Extras = some (extrasOf req) := rfl
  unfold OpenAIProvider.payload
  rw [hE]
  dsimp only
  exact GoMap.get?_foldl_set (extrasOf req) (extrasOf_nodup req)
    (OpenAIProvider.payloadHead (h.buildProviderRequest req route)) k

theorem get?_buildMessageMap (msg : ChatMessage) :
    GoMap.get? (buildMessageMap msg) "role" = some (.str msg.Role) ∧
      GoMap.get? (buildMessageMap msg) "content"
        = (if msg.Content.isNil then none else some msg.Content) ∧
      GoMap.get? (buildMessageMap msg) "name"
        = (if msg.Name = "" then none else some (.str msg.Name)) ∧
      GoMap.get? (buildMessageMap msg) "function_call"
        = (if msg.FunctionCall.isNil then none else some msg.FunctionCall) ∧
      GoMap.get? (buildMessageMap msg) "tool_calls"
        = (if msg.ToolCalls.isNil then none else some msg.ToolCalls) ∧
      GoMap.get? (buildMessageMap msg) "tool_call_id"
        = (if msg.ToolCallID = "" then none else some (.str msg.ToolCallID)) ∧
      GoMap.get? (buildMessageMap msg) "reasoning_content"
        = (if msg.ReasoningContent = "" then none else some (.str msg.ReasoningContent)) := by
  unfold buildMessageMap
  cases msg.Content.isNil <;> cases msg.FunctionCall.isNil <;> cases msg.ToolCalls.isNil <;>
    by_cases h1 : msg.Name = "" <;> by_cases h2 : msg.ToolCallID = "" <;>
    by_cases h3 : msg.ReasoningContent = "" <;>
    simp [GoMap.get?_set_ite, GoMap.get?, h1, h2, h3]

/-- C19: the payload sent to the provider for a client request and a resolved route has
`model` equal to the route's served name; it has each of the keys `temperature`, `top_p`,
`max_tokens`, `frequency_penalty`, `presence_penalty`, `stop` and `n` exactly when the
request field is present (not nil), with the value of that field; and `messages` is the
list of the message maps, each of which has `role` and has `content`, `name`,
`function_call`, `tool_calls`, `tool_call_id` and `reasoning_content` exactly when the
client message carries a value for it (a non-nil value for the three dynamically typed
fields, a non-empty string for the three string fields), with that value. -/
theorem provider_payload_has_exactly_the_given_fields (h : ChatHandler)
    (req : chatrequests.ChatCompletionRequest) (route : Route) :
    GoMap.get? (OpenAIProvider.payload (h.buildProviderRequest req route)) "model"
        = some (.str route.Model.ServedName) ∧
      GoMap.get? (OpenAIProvider.payload (h.buildProviderRequest req route)) "temperature"
        = req.Temperature.map GoAny.float32 ∧
      GoMap.get? (OpenAIProvider.payload (h.buildProviderRequest req route)) "top_p"
        = req.TopP.map GoAny.float32 ∧
      GoMap.get? (OpenAIProvider.payload (h.buildProviderRequest req route)) "max_tokens"
        = req.MaxTokens.map GoAny.int ∧
      GoMap.get? (OpenAIProvider.payload (h.buildProviderRequest req route)) "frequency_penalty"
        = req.FrequencyPenalty.map GoAny.float32 ∧
      GoMap.get? (OpenAIProvider.payload (h.buildProviderRequest req route)) "presence_penalty"
        = req.PresencePenalty.map GoAny.float32 ∧
      GoMap.get? (OpenAIProvider.payload (h.buildProviderRequest req route)) "stop"
        = (if req.Stop.isNil then none else some req.Stop) ∧
      GoMap.get? (OpenAIProvider.payload (h.buildProviderRequest req route)) "n"
        = req.N.map GoAny.int ∧
      GoMap.get? (OpenAIProvider.payload (h.buildProviderRequest req route)) "messages"
        = some (.list ((req.Messages.map buildMessageMap).map GoAny.dict)) ∧
      ∀ msg ∈ req.Messages,
        GoMap.get? (buildMessageMap msg) "role" = some (.str msg.Role) ∧
        GoMap.get? (buildMessageMap msg) "content"
          = (if msg.Content.isNil then none else some msg.Content) ∧
        GoMap.get? (buildMessageMap msg) "name"
          = (if msg.Name = "" then none else some (.str msg.Name)) ∧
        GoMap.get? (buildMessageMap msg) "function_call"
          = (if msg.FunctionCall.isNil then none else some msg.FunctionCall) ∧
        GoMap.get? (buildMessageMap msg) "tool_calls"
          = (if msg.ToolCalls.isNil then none else some msg.ToolCalls) ∧
        GoMap.get? (buildMessageMap msg) "tool_call_id"
          = (if msg.ToolCallID = "" then none else some (.str msg.ToolCallID)) ∧
        GoMap.get? (buildMessageMap msg) "reasoning_content"
          = (if msg.ReasoningContent = "" then none
             else some (.str msg.ReasoningContent)) := by
  have hModel : (h.buildProviderRequest req route).Model = route.Model.ServedName := rfl
  have hMsgs : (h.buildProviderRequest req route).Messages = req.Messages.map buildMessageMap :=
    rfl
  have hT : (h.buildProviderRequest req route).Temperature = req.Temperature := rfl
  have hP : (h.buildProviderRequest req route).TopP = req.TopP := rfl
  have hM : (h.buildProviderRequest req route).MaxTokens = req.MaxTokens := rfl
  refine ⟨?_, ?_, ?_, ?_, ?_, ?_, ?_, ?_, ?_, fun msg _ => get?_buildMessageMap msg⟩
  · rw [get?_payload_buildProviderRequest, get?_extrasOf_model, get?_payloadHead_model, hModel]
    rfl
  · rw [get?_payload_buildProviderRequest, get?_extrasOf_temperature,
      get?_payloadHead_temperature, hT]
    rfl
  · rw [get?_payload_buildProviderRequest, get?_extrasOf_top_p, get?_payloadHead_top_p, hP]
    rfl
  · rw [get?_payload_buildProviderRequest, get?_extrasOf_max_tokens,
      get?_payloadHead_max_tokens, hM]
    rfl
  · rw [get?_payload_buildProviderRequest, get?_extrasOf_frequency_penalty,
      get?_payloadHead_frequency_penalty]
    cases req.FrequencyPenalty <;> rfl
  · rw [get?_payload_buildProviderRequest, get?_extrasOf_presence_penalty,
      get?_payloadHead_presence_penalty]
    cases req.PresencePenalty <;> rfl
  · rw [get?_payload_buildProviderRequest, get?_extrasOf_stop, get?_payloadHead_stop]
    cases req.Stop.isNil <;> rfl
  · rw [get?_payload_buildProviderRequest, get?_extrasOf_n, get?_payloadHead_n]
    cases req.N <;> rfl
  · rw [get?_payload_buildProviderRequest, get?_extrasOf_messages, get?_payloadHead_messages,
      hMsgs]
    rfl

/-! ## Theorems: the generated title -/

theorem lastIndexFrom_absent (sep : UInt8) (l : Bytes) (i : Nat) (best : Int)
    (h : ∀ j : Nat, l[j]? ≠ some sep) : lastIndexFrom sep l i best = best := by
  induction l generalizing i best with
  | nil => rfl
  | cons x rest ih =>
    have hx : ¬ x = sep := by
      have := h 0
      simpa using this
    simp only [lastIndexFrom, hx, if_false]
    exact ih (i + 1) best (fun j => by simpa using h (j + 1))

theorem lastIndexFrom_last (sep : UInt8) (l : Bytes) (i k : Nat) (best : Int)
    (hk : l[k]? = some sep) (hlast : ∀ j, k < j → l[j]? ≠ some sep) :
    lastIndexFrom sep l i best = ((i + k : Nat) : Int) := by
  induction l generalizing i k best with
  | nil => simp at hk
  | cons x rest ih =>
    cases k with
    | zero =>
      have hx : x = sep := by simpa using hk
      simp only [lastIndexFrom, hx, if_true]
      rw [lastIndexFrom_absent sep rest (i + 1) _
        (fun j => by simpa using hlast (j + 1) (Nat.succ_pos j))]
      rfl
    | succ k =>
      rw [lastIndexFrom, ih (i + 1) k _ (by simpa using hk)
        (fun j hj => by simpa using hlast (j + 1) (Nat.succ_lt_succ hj))]
      congr 1
      omega

theorem lastIndexFrom_cases (sep : UInt8) (l : Bytes) (i : Nat) (best : Int) :
    lastIndexFrom sep l i best = best ∨
      ∃ k, l[k]? = some sep ∧ lastIndexFrom sep l i best = ((i + k : Nat) : Int) := by
  induction l generalizing i best with
  | nil => exact Or.inl rfl
  | cons x rest ih =>
    rw [lastIndexFrom]
    rcases ih (i + 1) (if x = sep then (i : Int) else best) with h | ⟨k, hk, h⟩
    · by_cases hx : x = sep
      · right
        refine ⟨0, by simp [hx], ?_⟩
        rw [h, if_pos hx]
        rfl
      · left
        rw [h, if_neg hx]
    · right
      refine ⟨k + 1, by simpa using hk, ?_⟩
      rw [h]
      congr 1
      omega

theorem generateTitle_eq (h : ChatHandler) (messages : List ChatMessage) :
    h.generateTitleFromMessages messages
      = match firstUserText messages with
        | none => utf8 "New Conversation"
        | some content =>
          if (TrimSpace (utf8 content)).length > 60 then
            if LastIndexSpace ((TrimSpace (utf8 content)).take 60) > 30 then
              (TrimSpace (utf8 content)).take
                (LastIndexSpace ((TrimSpace (utf8 content)).take 60)).toNat ++ utf8 "..."
            else (TrimSpace (utf8 content)).take 60 ++ utf8 "..."
          else TrimSpace (utf8 content) := by
  induction messages with
  | nil => rfl
  | cons msg rest ih =>
    unfold ChatHandler.generateTitleFromMessages firstUserText
    by_cases hr : msg.Role = "user"
    · simp only [hr, if_true]
      cases hc : msg.Content with
      | str content =>
        by_cases he : content = ""
        · simp only [he, ne_eq, not_true_eq_false, if_false]
          exact ih
        · simp only [ne_eq, he, not_false_eq_true, if_true]
      | null => exact ih
      | bool b => exact ih
      | int n => exact ih
      | float32 x => exact ih
      | float64 b => exact ih
      | list xs => exact ih
      | dict kvs => exact ih
    · simp only [hr, if_false]
      exact ih

/-- C20, as stated, fails: the text of the first user message is trimmed before anything
else, so for the 6-byte text `  hi  ` the title is `hi`, not the text itself; and a text
longer than 60 bytes is suffixed with three dots, not with the one-character ellipsis. -/
theorem title_is_trimmed_and_dotted :
    firstUserText [textMessage "user" "  hi  "] = some "  hi  " ∧
      sampleHandler.generateTitleFromMessages [textMessage "user" "  hi  "] = utf8 "hi" ∧
      sampleHandler.generateTitleFromMessages [textMessage "user" "  hi  "] ≠ utf8 "  hi  " ∧
      sampleHandler.generateTitleFromMessages [textMessage "user" longWord]
        = (utf8 longWord).take 60 ++ utf8 "..." ∧
      sampleHandler.generateTitleFromMessages [textMessage "user" longWord]
        ≠ (utf8 longWord).take 60 ++ utf8 "…" := by
  decide

/-- C20, amended: `generateTitleFromMessages` returns `New Conversation` when no user
message has a non-empty string content; otherwise, with `t` the first such content after
`strings.TrimSpace`: `t` itself when `t` has at most 60 bytes; and when `t` is longer, the
first 60 bytes of `t` cut before their last space if that space lies at an index greater
than 30, or the full 60 bytes if there is no space at an index greater than 30 among them,
suffixed with three dots. -/
theorem generated_title_cases (h : ChatHandler) (messages : List ChatMessage) :
    (firstUserText messages = none →
        h.generateTitleFromMessages messages = utf8 "New Conversation") ∧
      (∀ s, firstUserText messages = some s → (TrimSpace (utf8 s)).length ≤ 60 →
        h.generateTitleFromMessages messages = TrimSpace (utf8 s)) ∧
      (∀ s k, firstUserText messages = some s → 60 < (TrimSpace (utf8 s)).length →
        30 < k → k < 60 → (TrimSpace (utf8 s))[k]? = some 0x20 →
        (∀ j, j < 60 → k < j → (TrimSpace (utf8 s))[j]? ≠ some 0x20) →
        h.generateTitleFromMessages messages = (TrimSpace (utf8 s)).take k ++ utf8 "...") ∧
      (∀ s, firstUserText messages = some s → 60 < (TrimSpace (utf8 s)).length →
        (∀ j, j < 60 → 30 < j → (TrimSpace (utf8 s))[j]? ≠ some 0x20) →
        h.generateTitleFromMessages messages = (TrimSpace (utf8 s)).take 60 ++ utf8 "...") := by
  have heq := generateTitle_eq h messages
  refine ⟨?_, ?_, ?_, ?_⟩
  · intro hnone
    rw [heq, hnone]
  · intro s hs hlen
    rw [heq, hs]
    simp only
    rw [if_neg (by omega)]
  · intro s k hs hlen hk30 hk60 hat hlast
    have hidx : LastIndexSpace ((TrimSpace (utf8 s)).take 60) = (k : Int) := by
      have := lastIndexFrom_last 0x20 ((TrimSpace (utf8 s)).take 60) 0 k (-1)
        (by rw [List.getElem?_take]; simp [hk60, hat])
        (fun j hj => by
          by_cases hj60 : j < 60
          · rw [List.getElem?_take]; simp [hj60, hlast j hj60 hj]
          · rw [List.getElem?_eq_none]
            · simp
            · rw [List.length_take]; omega)
      simpa [LastIndexSpace] using this
    rw [heq, hs]
    simp only
    rw [if_pos (by omega), hidx, if_pos (by omega)]
    simp
  · intro s hs hlen hnone
    have hidx : ¬ LastIndexSpace ((TrimSpace (utf8 s)).take 60) > 30 := by
      intro hgt
      rcases lastIndexFrom_cases 0x20 ((TrimSpace (utf8 s)).take 60) 0 (-1) with hb | ⟨k, hk, hb⟩
      · rw [LastIndexSpace, hb] at hgt
        omega
      · rw [LastIndexSpace, hb] at hgt
        have hk60 : k < 60 := by
          by_contra hge
          rw [List.getElem?_eq_none (by rw [List.length_take]; omega)] at hk
          simp at hk
        rw [List.getElem?_take] at hk
        simp only [hk60, if_true] at hk
        exact hnone k hk60 (by omega) hk
    rw [heq, hs]
    simp only
    rw [if_pos (by omega), if_neg hidx]

theorem generated_title_cases_witness :
    firstUserText [textMessage "user" longSentence] = some longSentence ∧
      60 < (TrimSpace (utf8 longSentence)).length ∧
      (TrimSpace (utf8 longSentence))[40]? = some 0x20 ∧
      (∀ j, j < 60 → 40 < j → (TrimSpace (utf8 longSentence))[j]? ≠ some 0x20) ∧
      sampleHandler.generateTitleFromMessages [textMessage "user" longSentence]
        = (TrimSpace (utf8 longSentence)).take 40 ++ utf8 "..." :=
  ⟨by decide, by decide, by decide, by decide,
    (generated_title_cases sampleHandler [textMessage "user" longSentence]).2.2.1
      longSentence 40 (by decide) (by decide) (by decide) (by decide) (by decide) (by decide)⟩

/-! ## Theorems: idempotent replay and foreign conversations -/

theorem create_world (env : Env) (w : World) (conv : domain.Conversation) :
    (ConversationRepository.Create env w conv).1.idempotency = w.idempotency ∧
      (ConversationRepository.Create env w conv).1.providerCalls = w.providerCalls := by
  unfold ConversationRepository.Create
  cases env.conversationCreateError with
  | some e => exact ⟨rfl, rfl⟩
  | none =>
    by_cases hdup : (w.conversations.any (fun c => decide (c.ID = conv.ID))) = true
    · simp [hdup]
    · simp [hdup]

theorem createConversation_world (h : ChatHandler) (env : Env) (w : World) (ownerID : String) :
    (h.createConversation env w ownerID).1.idempotency = w.idempotency ∧
      (h.createConversation env w ownerID).1.providerCalls = w.providerCalls := by
  unfold ChatHandler.createConversation
  cases env.generateSecureID with
  | error e => exact ⟨rfl, rfl⟩
  | ok convID =>
    simp only
    have hw := create_world env w
      { ID := convID, OwnerPrincipalID := ownerID, Title := [], Metadata := [],
        CreatedAt := env.now, UpdatedAt := env.now }
    cases hC : ConversationRepository.Create env w
      { ID := convID, OwnerPrincipalID := ownerID, Title := [], Metadata := [],
        CreatedAt := env.now, UpdatedAt := env.now } with
    | mk w' e =>
      rw [hC] at hw
      cases e <;> exact hw

theorem resolveConversation_world (h : ChatHandler) (env : Env) (w : World)
    (principal : Principal) (req : chatrequests.ChatCompletionRequest) :
    (h.resolveConversation env w principal req).1.idempotency = w.idempotency ∧
      (h.resolveConversation env w principal req).1.providerCalls = w.providerCalls := by
  unfold ChatHandler.resolveConversation
  by_cases href : (req.Conversation.isSome && !ConversationReference.IsEmpty req.Conversation) = true
  · rw [if_pos href]
    dsimp only
    by_cases hid : ConversationReference.GetID req.Conversation ≠ ""
    · rw [if_pos hid]
      cases ConversationRepository.Get env w (ConversationReference.GetID req.Conversation) with
      | error e => exact ⟨rfl, rfl⟩
      | ok existing =>
        cases existing with
        | none => exact ⟨rfl, rfl⟩
        | some conv =>
          simp only
          by_cases ho : conv.OwnerPrincipalID ≠ principal.ID
          · rw [if_pos ho]; exact ⟨rfl, rfl⟩
          · rw [if_neg ho]; exact ⟨rfl, rfl⟩
    · rw [if_neg hid]
      have hw := createConversation_world h env w principal.ID
      cases hC : h.createConversation env w principal.ID with
      | mk w' r =>
        rw [hC] at hw
        cases r <;> exact hw
  · rw [if_neg href]
    exact ⟨rfl, rfl⟩

theorem store_get_congr (env : Env) (w w' : World) (principalID method path key : String)
    (hw : w'.idempotency = w.idempotency) :
    Store.Get env w' principalID method path key = Store.Get env w principalID method path key := by
  unfold Store.Get
  rw [hw]

theorem replayStream_writes (env : Env) (c : GinContext) (record : Record)
    (hflush : c.CanFlush = true)
    (hfresh : c.Writer.Writes = 0) (hwrite : env.clientWriteError 0 = none)
    (hcode : checkWriteHeaderCode record.Status = true) :
    (replayStream env c record).Writer.Body = c.Writer.Body ++ record.Response ∧
      (replayStream env c record).Writer.Status = record.Status := by
  have hstatus : 0 < record.Status := by
    simp only [checkWriteHeaderCode, decide_eq_true_eq] at hcode
    omega
  unfold replayStream PrepareSSE
  simp only [hflush, GinContext.Status, hfresh, hstatus, gt_iff_lt, and_self, if_true]
  by_cases hlen : record.Response.length > 0
  · simp [hlen, GinContext.Write, ResponseWriter.Write, hfresh, hwrite]
  · have hnil : record.Response = [] := by
      cases hr : record.Response with
      | nil => rfl
      | cons x xs => simp [hr] at hlen
    simp [hnil]

/-- C14, as stated, fails: the idempotency store holds, for the request's key, a record
with the status code 0. The streaming request is answered from it without any adapter
invocation, and the bytes of the record are written with status 200, not with the
record's status. -/
theorem zero_status_record_replayed_with_200 :
    Store.Get sampleEnv zeroStatusWorld samplePrincipal.ID sampleContext.Method
        sampleContext.FullPath (sampleContext.GetHeader "Idempotency-Key")
        = .ok (some zeroStatusRecord) ∧
      zeroStatusRecord.Status = 0 ∧
      zeroStatusReplay.1.providerCalls.length = 0 ∧
      zeroStatusReplay.2.2.succeeded = true ∧
      zeroStatusReplay.2.1.Writer.Body = zeroStatusRecord.Response ∧
      zeroStatusReplay.2.1.Writer.Status = 200 :=
  ⟨rfl, by decide, by decide, by decide, by decide, by decide⟩

/-- C14, amended: for a request with a non-empty `Idempotency-Key` for which the
idempotency store returns a record for `(principal.ID, method, path, key)`,
`createChatCompletion` never invokes the provider adapter. When the lookup is reached (the
conversation step and the model resolution, which come first, did not end the call), a
non-streaming request gets a result whose `RawBody` is `record.Response` and whose
`StatusCode` is `record.Status`; and for a streaming request exactly `record.Response` is
written to the client with status `record.Status`, provided that the record's status code
has three digits (`checkWriteHeaderCode`) and allows a body (`bodyAllowedForStatus`: not
1xx, 204 or 304), the writer can flush, the response has not started and the write to the
client does not fail. -/
theorem replay_short_circuits (h : ChatHandler) (env : Env) (w : World) (c : GinContext)
    (principal : Principal) (req : chatrequests.ChatCompletionRequest) (record : Record)
    (hkey : c.GetHeader "Idempotency-Key" ≠ "")
    (hrec : Store.Get env w principal.ID c.Method c.FullPath (c.GetHeader "Idempotency-Key")
      = .ok (some record)) :
    (h.createChatCompletion env w c principal req).1.providerCalls = w.providerCalls ∧
      ∀ conv conversationID messages,
        (h.resolveConversation env w principal req).2 = .ok (conv, conversationID, messages) →
        (h.registry.Resolve req.Model).2 = none →
        (req.Stream = false →
          (h.createChatCompletion env w c principal req).2.2
              = .returned
                { Response := none
                  RawBody := record.Response
                  StatusCode := record.Status
                  Headers := some []
                  ConversationID := conversationID
                  ConversationTitle := h.getConversationTitle conv } ∧
            (h.createChatCompletion env w c principal req).2.1 = c) ∧
        (req.Stream = true → c.CanFlush = true → c.Writer.Writes = 0 →
          env.clientWriteError 0 = none → checkWriteHeaderCode record.Status = true →
          bodyAllowedForStatus record.Status = true →
          (h.createChatCompletion env w c principal req).2.2
              = .returned ChatCompletionResult.zero ∧
            (h.createChatCompletion env w c principal req).2.1.Writer.Body
              = c.Writer.Body ++ record.Response ∧
            (h.createChatCompletion env w c principal req).2.1.Writer.Status
              = record.Status) := by
  have hworld := resolveConversation_world h env w principal req
  cases hR : h.resolveConversation env w principal req with
  | mk w1 res =>
    rw [hR] at hworld
    have hrec1 : Store.Get env w1 principal.ID c.Method c.FullPath
        (c.GetHeader "Idempotency-Key") = .ok (some record) := by
      rw [store_get_congr env w w1 _ _ _ _ hworld.1]
      exact hrec
    cases res with
    | error ended =>
      constructor
      · simp only [ChatHandler.createChatCompletion, hR]
        exact hworld.2
      · intro conv conversationID messages hconv
        simp at hconv
    | ok triple =>
      obtain ⟨conv', id', msgs'⟩ := triple
      cases hRes : h.registry.Resolve req.Model with
      | mk route err =>
        cases err with
        | some e =>
          constructor
          · simp only [ChatHandler.createChatCompletion, hR, hRes]
            exact hworld.2
          · intro conv conversationID messages _ hroute
            simp at hroute
        | none =>
          have hmain : h.createChatCompletion env w c principal req
              = if req.Stream = true then
                  (w1, replayStream env c record, .returned ChatCompletionResult.zero)
                else
                  (w1, c, .returned
                    { Response := none
                      RawBody := record.Response
                      StatusCode := record.Status
                      Headers := some []
                      ConversationID := id'
                      ConversationTitle := h.getConversationTitle conv' }) := by
            simp only [ChatHandler.createChatCompletion, hR, hRes, hkey, hrec1, ne_eq,
              not_false_eq_true, if_true]
          constructor
          · rw [hmain]
            split <;> exact hworld.2
          · intro conv conversationID messages hconv _
            simp only [Except.ok.injEq, Prod.mk.injEq] at hconv
            obtain ⟨rfl, rfl, rfl⟩ := hconv
            constructor
            · intro hs
              rw [hmain, hs]
              simp
            · intro hs hflush hfresh hwrite hcode _
              rw [hmain, hs]
              simp only [if_true]
              exact ⟨trivial, replayStream_writes env c record hflush hfresh hwrite hcode⟩

theorem replay_short_circuits_witness :
    sampleContext.GetHeader "Idempotency-Key" ≠ "" ∧
      Store.Get sampleEnv replayWorld samplePrincipal.ID sampleContext.Method
          sampleContext.FullPath (sampleContext.GetHeader "Idempotency-Key")
        = .ok (some replayRecord) ∧
      (sampleHandler.createChatCompletion sampleEnv replayWorld sampleContext samplePrincipal
          (sampleRequest true none)).1.providerCalls = replayWorld.providerCalls ∧
      (sampleHandler.createChatCompletion sampleEnv replayWorld sampleContext samplePrincipal
          (sampleRequest true none)).2.1.Writer.Body
        = sampleContext.Writer.Body ++ replayRecord.Response ∧
      (sampleHandler.createChatCompletion sampleEnv replayWorld sampleContext samplePrincipal
          (sampleRequest true none)).2.1.Writer.Status = replayRecord.Status :=
  ⟨by decide, rfl,
    (replay_short_circuits sampleHandler sampleEnv replayWorld sampleContext samplePrincipal
      (sampleRequest true none) replayRecord (by decide) rfl).1,
    (((replay_short_circuits sampleHandler sampleEnv replayWorld sampleContext samplePrincipal
      (sampleRequest true none) replayRecord (by decide) rfl).2 none ""
      (sampleRequest true none).Messages rfl rfl).2 rfl rfl rfl rfl (by decide) (by decide)).2⟩

theorem reference_of_getID (ref : Option ConversationReference)
    (hid : ConversationReference.GetID ref ≠ "") :
    (ref.isSome && !ConversationReference.IsEmpty ref) = true := by
  cases ref with
  | none => simp [ConversationReference.GetID] at hid
  | some r =>
    cases hI : r.ID with
    | some id => simp [ConversationReference.IsEmpty, hI]
    | none =>
      cases hO : r.Object with
      | some obj => simp [ConversationReference.IsEmpty, hI, hO]
      | none => simp [ConversationReference.GetID, hI, hO] at hid

theorem createChatCompletion_foreign (h : ChatHandler) (env : Env) (w : World) (c : GinContext)
    (principal : Principal) (req : chatrequests.ChatCompletionRequest)
    (existing : domain.Conversation)
    (hid : ConversationReference.GetID req.Conversation ≠ "")
    (hfind : w.conversations.find?
      (fun cv => decide (cv.ID = ConversationReference.GetID req.Conversation)) = some existing)
    (howner : existing.OwnerPrincipalID ≠ principal.ID) :
    h.createChatCompletion env w c principal req
      = (w, c, .failed
          ((env.conversationGetError.map
              (fun e => "failed to get conversation: " ++ ("get conversation: " ++ e))).getD
            "conversation not found or access denied")) := by
  have href := reference_of_getID req.Conversation hid
  have hres : h.resolveConversation env w principal req
      = (w, .error (.failed
          ((env.conversationGetError.map
              (fun e => "failed to get conversation: " ++ ("get conversation: " ++ e))).getD
            "conversation not found or access denied"))) := by
    unfold ChatHandler.resolveConversation
    rw [if_pos href]
    dsimp only
    rw [if_pos hid]
    unfold ConversationRepository.Get
    cases env.conversationGetError with
    | some e => rfl
    | none =>
      simp only [hfind]
      rw [if_pos howner]
      rfl
  simp only [ChatHandler.createChatCompletion, hres]

/-- C18: when the request references an existing conversation whose `OwnerPrincipalID`
differs from the requesting principal's `ID`, `createChatCompletion` returns an error and
leaves the world as it was: no adapter invocation is added and the idempotency table is
not written. Nor is the idempotency store read: the outcome is the same whatever the
idempotency table holds and however its reads and writes would fail. -/
theorem foreign_conversation_is_rejected (h : ChatHandler) (env : Env) (w : World)
    (c : GinContext) (principal : Principal) (req : chatrequests.ChatCompletionRequest)
    (existing : domain.Conversation)
    (hid : ConversationReference.GetID req.Conversation ≠ "")
    (hfind : w.conversations.find?
      (fun cv => decide (cv.ID = ConversationReference.GetID req.Conversation)) = some existing)
    (howner : existing.OwnerPrincipalID ≠ principal.ID) :
    (∃ err, (h.createChatCompletion env w c principal req).2.2 = .failed err) ∧
      (h.createChatCompletion env w c principal req).1.providerCalls = w.providerCalls ∧
      (h.createChatCompletion env w c principal req).1.idempotency = w.idempotency ∧
      (h.createChatCompletion env w c principal req).2.1 = c ∧
      ∀ (records : List Record) (getErr saveErr : Option String),
        (h.createChatCompletion
            { env with idempotencyGetError := getErr, idempotencySaveError := saveErr }
            { w with idempotency := records } c principal req).2.2
          = (h.createChatCompletion env w c principal req).2.2 := by
  rw [createChatCompletion_foreign h env w c principal req existing hid hfind howner]
  refine ⟨⟨_, rfl⟩, rfl, rfl, rfl, ?_⟩
  intro records getErr saveErr
  rw [createChatCompletion_foreign h
    { env with idempotencyGetError := getErr, idempotencySaveError := saveErr }
    { w with idempotency := records } c principal req existing hid hfind howner]

theorem foreign_conversation_is_rejected_witness :
    ConversationReference.GetID
        (sampleRequest false (some { ID := some "conv_1", Object := none })).Conversation ≠ "" ∧
      ("user_1" : String) ≠ "user_2" ∧
      (sampleHandler.createChatCompletion sampleEnv replayWorld sampleContext
          { samplePrincipal with ID := "user_2" }
          (sampleRequest false (some { ID := some "conv_1", Object := none }))).1.providerCalls
        = replayWorld.providerCalls :=
  ⟨by decide, by decide,
    (foreign_conversation_is_rejected sampleHandler sampleEnv replayWorld sampleContext
      { samplePrincipal with ID := "user_2" }
      (sampleRequest false (some { ID := some "conv_1", Object := none }))
      { ID := "conv_1", OwnerPrincipalID := "user_1", Title := utf8 "Greetings",
        Metadata := [], CreatedAt := 10, UpdatedAt := 10 }
      (by decide) (by decide) (by decide)).2.1⟩

/-! ## Theorems: the response for an unregistered model -/

/-- C17 at a failing input: a valid request (model id `m9`, one message) whose model is not
registered. `Resolve` reports `ErrModelNotFound`, and the client is answered with status
500 and the `completion_failed` error payload, not with a 404. -/
theorem unregistered_model_answered_with_500 :
    unknownModelRequest.Model ≠ "" ∧ unknownModelRequest.Messages.length = 1 ∧
      (sampleHandler.registry.Resolve unknownModelRequest.Model).2 = some ErrModelNotFound ∧
      unknownModelResponse.2.2 = none ∧
      unknownModelResponse.2.1.Writer.Status = 500 ∧
      unknownModelResponse.2.1.Writer.Status ≠ 404 ∧
      unknownModelResponse.2.1.Writer.Body
        = (sampleCodec unknownModelRequest).encodeError
            { ErrorType := "internal_error", Code := "completion_failed",
              Message := "model not found: m9", Param := "", RequestID := "req_1" } := by
  decide

/-! ## Theorems: bounds on the generated title -/

theorem lastIndexSpace_lt (l : Bytes) (h : LastIndexSpace l > 30) :
    (LastIndexSpace l).toNat < l.length := by
  rcases lastIndexFrom_cases 0x20 l 0 (-1) with hb | ⟨k, hk, hb⟩
  · rw [LastIndexSpace, hb] at h
    omega
  · have hlt : k < l.length := by
      by_contra hge
      rw [List.getElem?_eq_none (Nat.le_of_not_lt hge)] at hk
      simp at hk
    rw [LastIndexSpace, hb]
    simpa using hlt

/-- C21: for every message list, the title returned by `generateTitleFromMessages` has
length (in bytes, and so in characters too) at most 63, the suffix included. -/
theorem generated_title_length_le_63 (h : ChatHandler) (messages : List ChatMessage) :
    (h.generateTitleFromMessages messages).length ≤ 63 := by
  rw [generateTitle_eq]
  cases firstUserText messages with
  | none => decide
  | some content =>
    simp only
    have hdots : (utf8 "...").length = 3 := by decide
    split
    · split
      · rename_i hlong hidx
        have hlt := lastIndexSpace_lt _ hidx
        have h60 : ((TrimSpace (utf8 content)).take 60).length ≤ 60 := List.length_take_le _ _
        have htake := List.length_take_le
          (LastIndexSpace ((TrimSpace (utf8 content)).take 60)).toNat (TrimSpace (utf8 content))
        rw [List.length_append, hdots]
        omega
      · have h60 : ((TrimSpace (utf8 content)).take 60).length ≤ 60 := List.length_take_le _ _
        rw [List.length_append, hdots]
        omega
    · omega

/-- C30, as stated, fails: for a user message whose content is three spaces, the returned
title is the empty string. -/
theorem blank_message_gives_empty_title :
    sampleHandler.generateTitleFromMessages [textMessage "user" "   "] = [] := by
  decide

/-- C30, amended: `generateTitleFromMessages` returns the empty string exactly when the
first user message with a non-empty string content consists of white space only (its
content is empty after `strings.TrimSpace`); for every other message list the returned
title is not empty. -/
theorem generated_title_empty_iff (h : ChatHandler) (messages : List ChatMessage) :
    h.generateTitleFromMessages messages = [] ↔
      ∃ s, firstUserText messages = some s ∧ TrimSpace (utf8 s) = [] := by
  rw [generateTitle_eq]
  have hdots : utf8 "..." ≠ [] := by decide
  cases firstUserText messages with
  | none =>
    constructor
    · intro hnil
      exact absurd hnil (by decide)
    · rintro ⟨s, hs, _⟩
      simp at hs
  | some content =>
    simp only
    constructor
    · intro hnil
      refine ⟨content, rfl, ?_⟩
      split at hnil
      · split at hnil
        · exact absurd (List.append_eq_nil.mp hnil).2 hdots
        · exact absurd (List.append_eq_nil.mp hnil).2 hdots
      · exact hnil
    · rintro ⟨s, hs, hempty⟩
      simp only [Option.some.injEq] at hs
      subst hs
      rw [hempty]
      rfl

/-! ## Theorems: the two readers of branch items -/

/-- C29 at a failing input: a conversation as the database loader builds it, with items on
`MAIN` only and `EDIT` active. `GetActiveBranchItems()` returns the items of `MAIN`, while
`GetBranchItems("EDIT")` returns the empty list. The same happens on a conversation
without branch maps after `SwitchBranch("EDIT")`, which succeeds there. -/
theorem active_branch_items_differ_off_main :
    loadedConversation.ActiveBranch = "EDIT" ∧
      loadedConversation.GetBranchItems "MAIN"
        = [{ sampleItem "msg_1" "hello" with Branch := "MAIN" }] ∧
      loadedConversation.GetActiveBranchItems
        = [{ sampleItem "msg_1" "hello" with Branch := "MAIN" }] ∧
      loadedConversation.GetBranchItems loadedConversation.ActiveBranch = [] ∧
      (legacyConversation.SwitchBranch "EDIT").1.ActiveBranch = "EDIT" ∧
      (legacyConversation.SwitchBranch "EDIT").1.GetActiveBranchItems
        = [sampleItem "msg_1" "hello"] ∧
      (legacyConversation.SwitchBranch "EDIT").1.GetBranchItems "EDIT" = [] := by
  decide

/-- The two readers agree on the active branch exactly when `ActiveBranch` is a key of
`Branches`, or `ActiveBranch` is `MAIN`, or the flat `Items` list is empty. -/
theorem active_branch_items_eq_iff (c : Conversation) :
    c.GetActiveBranchItems = c.GetBranchItems c.ActiveBranch ↔
      (hasKey c.Branches c.ActiveBranch = true ∨ c.ActiveBranch = "MAIN" ∨ c.Items = []) := by
  unfold Conversation.GetActiveBranchItems Conversation.GetBranchItems hasKey lookup
  cases hB : c.Branches with
  | none =>
    by_cases hm : c.ActiveBranch = BranchMain
    · simp [hm, BranchMain]
    · have hm' : ¬ c.ActiveBranch = "MAIN" := hm
      simp [hm, hm']
  | some branches =>
    cases hget : GoMap.get? branches c.ActiveBranch with
    | some items => simp [hget]
    | none =>
      by_cases hm : c.ActiveBranch = BranchMain
      · simp [hget, hm, BranchMain]
      · have hm' : ¬ c.ActiveBranch = "MAIN" := hm
        simp [hget, hm, hm']

/-! ## Theorems: conversations in the chat completion handler -/

/-- C22 at a failing input: a request with one message that names the stored conversation
`conv_1`, owned by the caller. The adapter is invoked once, with exactly the request's own
message: nothing of the conversation is put in front of it. -/
theorem provider_gets_only_request_messages :
    conversationAttempt.2.2.succeeded = true ∧
      conversationAttempt.1.providerCalls.map (fun r => r.Messages.length) = [1] ∧
      conversationAttempt.1.providerCalls.map (fun r => r.Messages)
        = [(sampleRequest false (conversationRef "conv_1")).Messages.map buildMessageMap] :=
  ⟨by decide, by decide, rfl⟩

/-- C26 at a failing input: the request names the conversation id `conv_missing`, for which
`ConversationRepository.Get` returns no conversation and no error. The call does not
complete: it panics at the read of `conv.ID`. -/
theorem missing_conversation_panics :
    ConversationRepository.Get sampleEnv sampleWorld "conv_missing" = .ok none ∧
      missingConversationAttempt.2.2.succeeded = false ∧
      missingConversationAttempt.2.2.panicReason = some "nil pointer dereference: conv.ID" :=
  ⟨rfl, by decide, by decide⟩

/-- C27 at a failing input: a successful non-streaming request with the conversation
`conv_1` attached, answered by the provider with the body `null`. The body decodes
without error to a nil map, and `ChatCompletions` panics on writing the `conversation`
entry into it. -/
theorem null_body_panics_on_conversation_entry :
    (nullHandler.createChatCompletion sampleEnv sampleWorld sampleContext samplePrincipal
        (sampleRequest false (conversationRef "conv_1"))).2.2.statusAndBody
        = some (200, utf8 "null") ∧
      nullBodyResponse.2.2 = some "assignment to entry in nil map" := by
  decide

/-! ## Theorems: the conversation chunk and the text `[DONE]` -/

/-- C23 at a failing input: a conversation is attached and the provider streams a content
event whose text is `[DONE]` before its terminal marker. The conversation chunk is written
right after that content line, before the terminal marker has been read, and the callback
has set `conversationSent` after the very first chunk. -/
theorem conversation_chunk_follows_content_chunk :
    doneTextAttempt.2.2.succeeded = true ∧
      doneTextAttempt.2.1.Writer.Body
        = utf8 "data: \x7b\"content\":\"[DONE]\"\x7d\n"
          ++ (utf8 "data: " ++ utf8 "\"conv_1\"" ++ utf8 "\n\n")
          ++ utf8 "\n" ++ utf8 "data: [DONE]\n" ++ utf8 "\n" ∧
      (streamCallback sampleEnv (sampleWorld.conversations.head?) "m1"
          { c := sampleContext, buffer := [], conversationSent := false }
          (utf8 "data: \x7b\"content\":\"[DONE]\"\x7d\n")).1.conversationSent = true := by
  decide

/-! ## Theorems: headers of a blocking provider call -/

/-- C24, as stated, fails: the upstream sends `Set-Cookie` with the two values `a=1` and
`b=2`; the result of `ChatCompletions` holds `a=1` for that name and `b=2` nowhere. -/
theorem second_header_value_is_dropped :
    GoMap.get? twoCookieResponse.Header "Set-Cookie" = some ["a=1", "b=2"] ∧
      twoCookieResult
        = .ok { Body := utf8 "ok"
                StatusCode := 200
                Headers := some [("Set-Cookie", "a=1"), ("Content-Type", "application/json")] } :=
  ⟨by decide, rfl⟩
theorem get?_collectFold (header : GoMap (List String)) (out : GoMap String) (name : String)
    (hkeys : (header.map Prod.fst).Nodup) :
    GoMap.get?
        (header.foldl
          (fun out kv =>
            match kv.2 with
            | v0 :: _ => GoMap.set out kv.1 v0
            | [] => out)
          out) name
      = ((GoMap.get? header name).bind List.head?).orElse (fun _ => GoMap.get? out name) := by
  induction header generalizing out with
  | nil => simp [GoMap.get?]
  | cons kv rest ih =>
    obtain ⟨k, vs⟩ := kv
    simp only [List.map_cons, List.nodup_cons] at hkeys
    rw [List.foldl_cons, ih _ hkeys.2]
    by_cases hk : k = name
    · subst hk
      have hrest : GoMap.get? rest k = none := by
        apply GoMap.get?_eq_none_of_not_mem
        exact hkeys.1
      cases vs with
      | nil => simp [GoMap.get?, hrest]
      | cons v0 more => simp [GoMap.get?, hrest, GoMap.get?_set_self]
    · have hget : GoMap.get? ((k, vs) :: rest) name = GoMap.get? rest name := by
        simp [GoMap.get?, hk]
      rw [hget]
      cases vs with
      | nil => rfl
      | cons v0 more =>
        simp only
        rw [GoMap.get?_set_ne _ _ _ _ (fun h => hk h.symm)]

/-- C24, amended: when the exchange with the upstream succeeds and its body is read to the
end, `ChatCompletions` returns the upstream's status code and body unchanged, and a header
map that holds, for every header name, the first of the values the upstream sent for it;
a name sent with no value is absent, and so is every further value of a name. -/
theorem chatCompletions_keeps_status_and_first_header_values
    (performRequest : ChatCompletionRequest → GoMap String → Except String HTTPResponse)
    (req : ChatCompletionRequest) (principalHeaders : GoMap String) (resp : HTTPResponse)
    (hresp : performRequest { req with Stream := false } principalHeaders = .ok resp)
    (hread : resp.ReadErr = none)
    (hkeys : (resp.Header.map Prod.fst).Nodup) :
    ∃ out headers,
      OpenAIProvider.ChatCompletions performRequest req principalHeaders = .ok out ∧
        out.StatusCode = resp.StatusCode ∧
        out.Body = resp.Body ∧
        out.Headers = some headers ∧
        ∀ name, GoMap.get? headers name = (GoMap.get? resp.Header name).bind List.head? := by
  refine ⟨{ Body := resp.Body, StatusCode := resp.StatusCode,
             Headers := some (collectHeaders resp.Header) },
    collectHeaders resp.Header, ?_, rfl, rfl, rfl, ?_⟩
  · simp only [OpenAIProvider.ChatCompletions, hresp, hread]
  · intro name
    unfold collectHeaders
    rw [get?_collectFold _ _ _ hkeys]
    cases (GoMap.get? resp.Header name).bind List.head? <;> rfl

theorem chatCompletions_keeps_status_and_first_header_values_witness :
    ∃ out headers,
      OpenAIProvider.ChatCompletions (fun _ _ => .ok twoCookieResponse) sampleProviderRequest []
          = .ok out ∧
        out.StatusCode = twoCookieResponse.StatusCode ∧
        out.Body = twoCookieResponse.Body ∧
        out.Headers = some headers ∧
        ∀ name, GoMap.get? headers name
          = (GoMap.get? twoCookieResponse.Header name).bind List.head? :=
  chatCompletions_keeps_status_and_first_header_values (fun _ _ => .ok twoCookieResponse)
    sampleProviderRequest [] twoCookieResponse rfl rfl (by decide)

/-! ## Theorems: a stream that ends with an error -/

theorem streamLoop_err_of_stream_err (env : Env) (conv : Option domain.Conversation)
    (model : String) (e : String) (chunks : List Bytes) (st : StreamState) :
    (streamLoop env conv model (some e) chunks st).2 ≠ none := by
  induction chunks generalizing st with
  | nil => simp [streamLoop]
  | cons chunk rest ih =>
    unfold streamLoop
    cases hcb : streamCallback env conv model st chunk with
    | mk st1 err =>
      cases err with
      | some err => simp
      | none => exact ih st1

/-- C25: when the loop of `stream.Stream` ends with an error (the stream's own outcome, as
for a cancelled context or a failed upstream read, or the callback's error for a failed
write to the client), `streamChatCompletion` returns exactly that error and the idempotency
table is left as it was, whatever the idempotency key is; a stream whose own outcome is an
error always ends the loop with an error. -/
theorem failed_stream_saves_no_record (h : ChatHandler) (env : Env) (w : World)
    (c : GinContext) (route : Route) (provider : Provider) (req : ChatCompletionRequest)
    (forwardHeaders : GoMap String) (conv : Option domain.Conversation)
    (principal : Principal) (idempotencyKey : String) (stream : StreamResponse)
    (err : String)
    (hflush : c.CanFlush = true)
    (hprovider : route.Provider = some provider)
    (hstream : provider.ChatCompletionsStream w.providerCalls.length req forwardHeaders
      = .ok stream)
    (hloop : (streamLoop env conv req.Model stream.Err stream.Chunks
      (streamStart c stream)).2 = some err) :
    (h.streamChatCompletion env w c route req forwardHeaders conv principal
        idempotencyKey).2.2 = .failed err ∧
      (h.streamChatCompletion env w c route req forwardHeaders conv principal
        idempotencyKey).1.idempotency = w.idempotency ∧
      (∀ e, stream.Err = some e →
        (streamLoop env conv req.Model stream.Err stream.Chunks
          (streamStart c stream)).2 ≠ none) := by
  have hsse : PrepareSSE c = ((PrepareSSE c).1, true) := by
    simp [PrepareSSE, hflush]
  refine ⟨?_, ?_, ?_⟩
  · unfold ChatHandler.streamChatCompletion
    rw [hsse]
    simp only [hprovider, hstream]
    unfold streamStart at hloop
    cases hL : streamLoop env conv req.Model stream.Err stream.Chunks
        { c := (copyHeaders (PrepareSSE c).1 stream.Headers).Status
            (if stream.StatusCode = 0 then 200 else stream.StatusCode)
          buffer := []
          conversationSent := false } with
    | mk st res =>
      rw [hL] at hloop
      simp only at hloop
      subst hloop
      rfl
  · unfold ChatHandler.streamChatCompletion
    rw [hsse]
    simp only [hprovider, hstream]
    unfold streamStart at hloop
    cases hL : streamLoop env conv req.Model stream.Err stream.Chunks
        { c := (copyHeaders (PrepareSSE c).1 stream.Headers).Status
            (if stream.StatusCode = 0 then 200 else stream.StatusCode)
          buffer := []
          conversationSent := false } with
    | mk st res =>
      rw [hL] at hloop
      simp only at hloop
      subst hloop
      rfl
  · intro e he
    rw [he]
    exact streamLoop_err_of_stream_err env conv req.Model e stream.Chunks _

theorem failed_stream_saves_no_record_witness :
    (sampleHandler.streamChatCompletion sampleEnv sampleWorld sampleContext
        cancelledRoute sampleProviderRequest []
        none samplePrincipal "k1").2.2 = .failed "context canceled" ∧
      (sampleHandler.streamChatCompletion sampleEnv sampleWorld sampleContext
        cancelledRoute sampleProviderRequest []
        none samplePrincipal "k1").1.idempotency = sampleWorld.idempotency ∧
      (∀ e, cancelledStream.Err = some e →
        (streamLoop sampleEnv none sampleProviderRequest.Model cancelledStream.Err
          cancelledStream.Chunks (streamStart sampleContext cancelledStream)).2 ≠ none) :=
  failed_stream_saves_no_record sampleHandler sampleEnv sampleWorld sampleContext
    cancelledRoute cancelledProvider
    sampleProviderRequest [] none samplePrincipal "k1" cancelledStream "context canceled"
    rfl rfl rfl (by decide)

/-! ## Theorems: writes to the conversation table -/

theorem save_conversations (env : Env) (w : World) (rec : Record) :
    (Store.Save env w rec).1.conversations = w.conversations := by
  unfold Store.Save
  cases env.idempotencySaveError with
  | some e => rfl
  | none =>
    by_cases hdup : (w.idempotency.any (fun r => decide (r.Key = rec.Key))) = true
    · simp [hdup]
    · simp [hdup]

theorem callChatCompletion_conversations (h : ChatHandler) (w : World) (route : Route)
    (req : ChatCompletionRequest) (forwardHeaders : GoMap String) :
    (h.callChatCompletion w route req forwardHeaders).1.conversations = w.conversations := by
  unfold ChatHandler.callChatCompletion
  cases route.Provider with
  | none => rfl
  | some provider =>
    simp only
    cases provider.ChatCompletions w.providerCalls.length req forwardHeaders <;> rfl

theorem streamChatCompletion_conversations (h : ChatHandler) (env : Env) (w : World)
    (c : GinContext) (route : Route) (req : ChatCompletionRequest)
    (forwardHeaders : GoMap String) (conv : Option domain.Conversation)
    (principal : Principal) (idempotencyKey : String) :
    (h.streamChatCompletion env w c route req forwardHeaders conv principal
      idempotencyKey).1.conversations = w.conversations := by
  unfold ChatHandler.streamChatCompletion
  cases hsse : PrepareSSE c with
  | mk c1 ok =>
    cases ok with
    | false => rfl
    | true =>
      simp only
      cases route.Provider with
      | none => rfl
      | some provider =>
        simp only
        cases provider.ChatCompletionsStream w.providerCalls.length req forwardHeaders with
        | error e => rfl
        | ok stream =>
          simp only
          cases streamLoop env conv req.Model stream.Err stream.Chunks
              { c := (copyHeaders c1 stream.Headers).Status
                  (if stream.StatusCode = 0 then 200 else stream.StatusCode)
                buffer := []
                conversationSent := false } with
          | mk st res =>
            cases res with
            | some err => rfl
            | none =>
              simp only
              by_cases hkey : idempotencyKey ≠ ""
              · rw [if_pos hkey]
                exact save_conversations env _ _
              · rw [if_neg hkey]

theorem createChatCompletion_conversations (h : ChatHandler) (env : Env) (w : World)
    (c : GinContext) (principal : Principal) (req : chatrequests.ChatCompletionRequest) :
    (h.createChatCompletion env w c principal req).1.conversations
      = (h.resolveConversation env w principal req).1.conversations := by
  unfold ChatHandler.createChatCompletion
  cases hR : h.resolveConversation env w principal req with
  | mk w1 res =>
    cases res with
    | error ended => rfl
    | ok triple =>
      obtain ⟨conv, conversationID, messages⟩ := triple
      simp only
      cases hRes : h.registry.Resolve req.Model with
      | mk route err =>
        cases err with
        | some e => rfl
        | none =>
          simp only
          have hs := streamChatCompletion_conversations h env w1 c route
            (h.buildProviderRequest { req with Messages := messages } route)
            (forwardHeadersOf principal) conv principal (c.GetHeader "Idempotency-Key")
          have hc := callChatCompletion_conversations h w1 route
            (h.buildProviderRequest { req with Messages := messages } route)
            (forwardHeadersOf principal)
          split
          · split <;> rfl
          · split
            · rename_i heq
              have hw := congrArg (fun t => t.1.conversations) heq
              simp only at hw
              rw [← hw]
              split
              · exact hs
              · exact hc
            · split
              · exact hs
              · exact hc


theorem resolveConversation_keeps_world (h : ChatHandler) (env : Env) (w : World)
    (principal : Principal) (req : chatrequests.ChatCompletionRequest)
    (href : (req.Conversation.isSome && !ConversationReference.IsEmpty req.Conversation) = false
      ∨ ConversationReference.GetID req.Conversation ≠ "") :
    (h.resolveConversation env w principal req).1 = w := by
  unfold ChatHandler.resolveConversation
  by_cases hcond :
      (req.Conversation.isSome && !ConversationReference.IsEmpty req.Conversation) = true
  · rw [if_pos hcond]
    dsimp only
    have hid : ConversationReference.GetID req.Conversation ≠ "" := by
      rcases href with hno | hid
      · rw [hno] at hcond
        exact absurd hcond (by decide)
      · exact hid
    rw [if_pos hid]
    cases ConversationRepository.Get env w (ConversationReference.GetID req.Conversation) with
    | error e => rfl
    | ok existing =>
      cases existing with
      | none => rfl
      | some conv =>
        simp only
        by_cases ho : conv.OwnerPrincipalID ≠ principal.ID
        · rw [if_pos ho]
        · rw [if_neg ho]
  · rw [if_neg hcond]

/-- C28, as stated, fails: the idempotency store holds a record for the request's key, the
request's conversation reference is the empty JSON object, and the call, which is answered
from the record without any adapter invocation, has inserted the conversation `conv_new`
into the conversation table. -/
theorem replayed_request_creates_conversation :
    Store.Get sampleEnv replayWorld samplePrincipal.ID sampleContext.Method
        sampleContext.FullPath (sampleContext.GetHeader "Idempotency-Key")
        = .ok (some replayRecord) ∧
      replayWorld.conversations.map (fun cv => cv.ID) = ["conv_1"] ∧
      replayedNewConversationAttempt.2.2.succeeded = true ∧
      replayedNewConversationAttempt.1.providerCalls = replayWorld.providerCalls ∧
      replayedNewConversationAttempt.1.conversations.map (fun cv => cv.ID)
        = ["conv_1", "conv_new"] :=
  ⟨rfl, by decide, by decide, rfl, by decide⟩

/-- C28, amended: `createChatCompletion` writes to the conversation table exactly when the
request's conversation reference is present, not empty and without id, and the creation
succeeds (an id is generated, the insert does not fail, the id is not taken): the table
then is the one before with the new conversation, owned by the principal and without
title, appended. In every other case the table is left as it was. None of this depends on
the idempotency table, which is read only afterwards. -/
theorem conversation_written_iff_created (h : ChatHandler) (env : Env) (w : World)
    (c : GinContext) (principal : Principal) (req : chatrequests.ChatCompletionRequest) :
    (h.createChatCompletion env w c principal req).1.conversations =
      if (req.Conversation.isSome && !ConversationReference.IsEmpty req.Conversation) = true ∧
          ConversationReference.GetID req.Conversation = "" then
        match env.generateSecureID, env.conversationCreateError with
        | .ok convID, none =>
          if w.conversations.any (fun cv => decide (cv.ID = convID)) then w.conversations
          else
            w.conversations ++
              [{ ID := convID, OwnerPrincipalID := principal.ID, Title := [], Metadata := [],
                 CreatedAt := env.now, UpdatedAt := env.now }]
        | _, _ => w.conversations
      else w.conversations := by
  rw [createChatCompletion_conversations]
  by_cases hcond :
      (req.Conversation.isSome && !ConversationReference.IsEmpty req.Conversation) = true
  · by_cases hid : ConversationReference.GetID req.Conversation = ""
    · rw [if_pos ⟨hcond, hid⟩]
      unfold ChatHandler.resolveConversation
      rw [if_pos hcond]
      dsimp only
      rw [if_neg (fun hne => hne hid)]
      unfold ChatHandler.createConversation ConversationRepository.Create
      cases hg : env.generateSecureID with
      | error e => rfl
      | ok convID =>
        cases hc : env.conversationCreateError with
        | some e => rfl
        | none =>
          by_cases hdup : (w.conversations.any (fun cv => decide (cv.ID = convID))) = true
          · simp [hdup]
          · simp [hdup]
    · rw [if_neg (fun hboth => hid hboth.2),
        resolveConversation_keeps_world h env w principal req (Or.inr hid)]
  · rw [if_neg (fun hboth => hcond hboth.1),
      resolveConversation_keeps_world h env w principal req
        (Or.inl (by simpa using hcond))]

end JanServer
